import Mathlib

/-!
Verification development for the typed-value / relational-schema bridge of
the diem-sqlize repository. The Rust sources under src/ are shallowly
embedded: machine integers become Nat with explicit bounds where overflow
matters, strings become lists of characters, fallible or crashing code
returns an Except value, and the SQLite database becomes an explicit state
that the writer threads and the reader queries. Definitions follow the
source functions in src/db.rs, src/resolver.rs, src/annotator.rs and
src/fat_type.rs; the theorems at the end settle the frozen claims.
-/

namespace DiemSqlize

/-- A byte, stored as a Nat; well-formed bytes are below 256. -/
abbrev Byte := Nat

/-- Rust strings and identifiers are embedded as lists of characters. -/
abbrev Ident := List Char

set_option linter.unusedVariables false

/-! ## Big-endian byte encodings (u64::to_be_bytes, u128::to_be_bytes) -/

/-- Big-endian byte encoding of a value at a fixed width, the embedding of
the Rust to_be_bytes methods (width 8 for u64, width 16 for u128). -/
def beBytes : Nat → Nat → List Byte
  | 0, _ => []
  | w + 1, v => beBytes w (v / 256) ++ [v % 256]

/-- Big-endian decoding, the embedding of u128::from_be_bytes. -/
def fromBeBytes (bs : List Byte) : Nat :=
  bs.foldl (fun acc b => acc * 256 + b) 0

/-! ## Hex rendering of addresses (hex::encode, short_str_lossless) -/

/-- Two lowercase hex digits of one byte, as produced by hex::encode. -/
def hexByte (b : Byte) : List Char :=
  [Nat.digitChar (b / 16), Nat.digitChar (b % 16)]

/-- Lowercase hex rendering of a byte string, the embedding of hex::encode. -/
def hexEncode : List Byte → List Char
  | [] => []
  | b :: bs => hexByte b ++ hexEncode bs

/-- The embedding of AccountAddress::short_str_lossless: the hex rendering
with leading zero characters stripped, or the single character 0 for the
zero address. -/
def short_str_lossless (addr : List Byte) : List Char :=
  let h := (hexEncode addr).dropWhile (fun c => c = '0')
  if h.isEmpty then ['0'] else h

/-! ## Type tags (move_core_types::language_storage) -/

mutual
/-- The embedding of TypeTag. -/
inductive TypeTag where
  | bool : TypeTag
  | u8 : TypeTag
  | u64 : TypeTag
  | u128 : TypeTag
  | address : TypeTag
  | signer : TypeTag
  | vector (t : TypeTag) : TypeTag
  | struct_ (s : StructTag) : TypeTag
  deriving Repr

/-- The embedding of StructTag: address, module name, struct name and the
list of type parameters. -/
inductive StructTag where
  | mk (address : List Byte) (module : Ident) (name : Ident)
      (type_params : List TypeTag) : StructTag
  deriving Repr
end

/-- Address component of a struct tag. -/
def StructTag.address : StructTag → List Byte
  | .mk a _ _ _ => a

/-- Module component of a struct tag. -/
def StructTag.module : StructTag → Ident
  | .mk _ m _ _ => m

/-- Name component of a struct tag. -/
def StructTag.name : StructTag → Ident
  | .mk _ _ n _ => n

/-- Type parameter list of a struct tag. -/
def StructTag.type_params : StructTag → List TypeTag
  | .mk _ _ _ ps => ps

/-! ## Table naming (src/db.rs lines 341-374) -/

mutual
/-- The embedding of type_param_to_sql (src/db.rs lines 341-352). The
Signer arm of the source is unreachable and calls the panicking macro; it
is modelled by a sentinel string that no well-formed name contains. -/
def type_param_to_sql : TypeTag → List Char
  | .bool => ("Bool").toList
  | .u8 => ("U8").toList
  | .u64 => ("U64").toList
  | .u128 => ("U128").toList
  | .address => ("Address").toList
  | .signer => ("!Signer!").toList
  | .vector t => ("Vector__t_").toList ++ type_param_to_sql t ++ ("_t").toList
  | .struct_ s => struct_tag_to_sql s

/-- The embedding of type_params_to_sql (src/db.rs lines 354-357): the
renderings of the parameters joined by a double underscore. -/
def type_params_to_sql : List TypeTag → List Char
  | [] => []
  | [t] => type_param_to_sql t
  | t :: t2 :: ts => type_param_to_sql t ++ ("__").toList ++ type_params_to_sql (t2 :: ts)

/-- The embedding of struct_tag_to_sql (src/db.rs lines 359-370). -/
def struct_tag_to_sql : StructTag → List Char
  | .mk a m n ps =>
    ('x' :: short_str_lossless a) ++ ("__").toList ++ m ++ ("__").toList ++ n ++
      (if ps.isEmpty then [] else ("__t_").toList ++ type_params_to_sql ps ++ ("_t").toList)
end

/-- The embedding of vector_table_name (src/db.rs lines 372-374). -/
def vector_table_name (tag : StructTag) (field_name : Ident) : List Char :=
  struct_tag_to_sql tag ++ ("__").toList ++ field_name ++ ("__elements").toList

/-- Name of the root table for a tag, as formatted inline in generate_sql. -/
def root_table_name (tag : StructTag) : List Char :=
  ("__root__").toList ++ struct_tag_to_sql tag

example :
    struct_tag_to_sql
      (.mk [0, 0, 0, 0, 0, 0, 0, 0, 0, 0, 0, 0, 0, 0, 0, 1]
        ("Coin").toList ("Coin").toList []) = ("x1__Coin__Coin").toList := by
  decide

example :
    struct_tag_to_sql
      (.mk [0, 0, 0, 0, 0, 0, 0, 0, 0, 0, 0, 0, 0, 0, 0, 1]
        ("Coin").toList ("Balance").toList
        [.struct_ (.mk [0, 0, 0, 0, 0, 0, 0, 0, 0, 0, 0, 0, 0, 0, 0, 1]
          ("XDX").toList ("XDX").toList [])]) =
      ("x1__Coin__Balance__t_x1__XDX__XDX_t").toList := by
  decide

/-! ## Annotated values (src/annotator.rs lines 26-47, resource_viewer) -/

mutual
/-- The embedding of AnnotatedMoveValue. -/
inductive AnnotatedMoveValue where
  | u8 (v : Nat) : AnnotatedMoveValue
  | u64 (v : Nat) : AnnotatedMoveValue
  | u128 (v : Nat) : AnnotatedMoveValue
  | bool_ (b : Bool) : AnnotatedMoveValue
  | address (a : List Byte) : AnnotatedMoveValue
  | vector (t : TypeTag) (elems : List AnnotatedMoveValue) : AnnotatedMoveValue
  | bytes (bs : List Byte) : AnnotatedMoveValue
  | struct_ (s : AnnotatedMoveStruct) : AnnotatedMoveValue
  deriving Repr

/-- The embedding of AnnotatedMoveStruct: resource flag, struct tag, and the
ordered field list of identifier and value pairs. -/
inductive AnnotatedMoveStruct where
  | mk (is_resource : Bool) (type_ : StructTag)
      (value : List (Ident × AnnotatedMoveValue)) : AnnotatedMoveStruct
  deriving Repr
end

/-- Tag of an annotated struct. -/
def AnnotatedMoveStruct.type_ : AnnotatedMoveStruct → StructTag
  | .mk _ t _ => t

/-- Field list of an annotated struct. -/
def AnnotatedMoveStruct.value : AnnotatedMoveStruct → List (Ident × AnnotatedMoveValue)
  | .mk _ _ v => v

/-! ## Plain Move values (move_core_types::value) -/

mutual
/-- The embedding of MoveValue. -/
inductive MoveValue where
  | u8 (v : Nat) : MoveValue
  | u64 (v : Nat) : MoveValue
  | u128 (v : Nat) : MoveValue
  | bool_ (b : Bool) : MoveValue
  | address (a : List Byte) : MoveValue
  | vector (elems : List MoveValue) : MoveValue
  | struct_ (s : MoveStruct) : MoveValue
  deriving Repr

/-- The embedding of MoveStruct: the ordered list of field values. -/
inductive MoveStruct where
  | mk (fields : List MoveValue) : MoveStruct
  deriving Repr
end

mutual
/-- The MoveValue underlying an annotated value: annotations are dropped and
the Bytes specialization expands back into a vector of U8 values. -/
def eraseVal : AnnotatedMoveValue → MoveValue
  | .u8 v => .u8 v
  | .u64 v => .u64 v
  | .u128 v => .u128 v
  | .bool_ b => .bool_ b
  | .address a => .address a
  | .vector _ es => .vector (eraseList es)
  | .bytes bs => .vector (eraseBytes bs)
  | .struct_ s => .struct_ (eraseStruct s)

/-- Erasure of a list of annotated values. -/
def eraseList : List AnnotatedMoveValue → List MoveValue
  | [] => []
  | v :: vs => eraseVal v :: eraseList vs

/-- A byte string as a list of U8 Move values. -/
def eraseBytes : List Byte → List MoveValue
  | [] => []
  | b :: bs => .u8 b :: eraseBytes bs

/-- Erasure of an annotated struct to a plain Move struct. -/
def eraseStruct : AnnotatedMoveStruct → MoveStruct
  | .mk _ _ fs => .mk (eraseFields fs)

/-- Erasure of an annotated field list. -/
def eraseFields : List (Ident × AnnotatedMoveValue) → List MoveValue
  | [] => []
  | (_, v) :: fs => eraseVal v :: eraseFields fs
end

/-! ## Normalized types (vm::normalized::Type, Struct) -/

/-- The embedding of vm::normalized::Type, the field types the reader gets
back from resolver::resolve_struct. -/
inductive NType where
  | bool : NType
  | u8 : NType
  | u64 : NType
  | u128 : NType
  | address : NType
  | signer : NType
  | vector (t : NType) : NType
  | struct_ (address : List Byte) (module : Ident) (name : Ident)
      (type_arguments : List NType) : NType
  | typeParameter (i : Nat) : NType
  | reference (t : NType) : NType
  | mutableReference (t : NType) : NType
  deriving Repr

/-- A named field of a normalized struct. -/
structure NField where
  name : Ident
  type_ : NType
  deriving Repr

/-- The part of vm::normalized::Struct the reader consumes: the declared
field list in order. -/
structure NStruct where
  fields : List NField
  deriving Repr

mutual
/-- The embedding of Type::into_type_tag: a normalized type converts to a
TypeTag when it contains no type parameters and no references. -/
def NType.into_type_tag : NType → Option TypeTag
  | .bool => some .bool
  | .u8 => some .u8
  | .u64 => some .u64
  | .u128 => some .u128
  | .address => some .address
  | .signer => some .signer
  | .vector t =>
    match t.into_type_tag with
    | some tt => some (.vector tt)
    | none => none
  | .struct_ a m n args =>
    match intoTypeTagList args with
    | some tts => some (.struct_ (.mk a m n tts))
    | none => none
  | .typeParameter _ => none
  | .reference _ => none
  | .mutableReference _ => none

/-- into_type_tag over a list of type arguments. -/
def intoTypeTagList : List NType → Option (List TypeTag)
  | [] => some []
  | t :: ts =>
    match t.into_type_tag, intoTypeTagList ts with
    | some tt, some tts => some (tt :: tts)
    | _, _ => none
end

/-! ## The database model

The SQLite database is embedded as a map from table name to an optional
list of rows; a row is an association list from column name to SQL value.
Row ids are implicit: the i-th row of a table (counting from one) has
rowid i, which in struct tables is also its __id since that column is an
INTEGER PRIMARY KEY alias never listed in any INSERT. Tables only ever
gain rows; the source issues no UPDATE or DELETE. -/

/-- A stored SQL value: the writer binds integer literals, hex blob
literals and boolean literals. -/
inductive SqlValue where
  | int (i : Int)
  | blob (bs : List Byte)
  | boolean (b : Bool)
  deriving Repr, DecidableEq

/-- A database row: column name to value, in insert order. -/
abbrev Row := List (List Char × SqlValue)

/-- The database state: table name to rows, none when the table was never
created. -/
def Db := List Char → Option (List Row)

/-- The database with no tables. -/
def Db.empty : Db := fun _ => none

/-- Rows of a table, empty when the table does not exist. -/
def Db.rows (db : Db) (n : List Char) : List Row :=
  (db n).getD []

/-- The embedding of CREATE TABLE IF NOT EXISTS: an existing table is kept
unchanged, otherwise an empty table appears. -/
def Db.create (db : Db) (n : List Char) : Db :=
  fun m => if m = n then some (db.rows n) else db m

/-- Append a row to a table and return the rowid SQLite assigns to it,
which for an append-only table is the previous row count plus one. This is
the value last_insert_rowid reports right after the INSERT. -/
def Db.insertRow (db : Db) (n : List Char) (row : Row) : Db × Nat :=
  (fun m => if m = n then some (db.rows n ++ [row]) else db m, (db.rows n).length + 1)

/-- The row of a table at a one-based rowid. -/
def Db.rowAt (db : Db) (n : List Char) (id : Nat) : Option Row :=
  if id = 0 then none else (db.rows n).get? (id - 1)

/-- Number of rows of a table. -/
def Db.tlen (db : Db) (n : List Char) : Nat :=
  (db.rows n).length

/-- The slot column of the element-table rows whose parent_id column holds
the given id, in rowid order: what the reader receives from SELECT slot
FROM t WHERE parent_id = id ORDER BY rowid. -/
def Db.slots (db : Db) (n : List Char) (id : Nat) : List (Option SqlValue) :=
  ((db.rows n).filter
    (fun r => r.lookup ("parent_id").toList = some (.int (id : Int)))).map
    (fun r => r.lookup ("slot").toList)

/-- Statements of the SQL dialect the repository drives through sqlx. The
writer issues CREATE TABLE IF NOT EXISTS and the two INSERT forms; insert
statements additionally record the rowid SQLite assigned. UPDATE is part
of the statement language so that its absence from every emitted log is
expressible; no source path constructs one. -/
inductive Stmt where
  | createTable (table : List Char) (decls : List (List Char))
  | insert (table : List Char) (cols : List (List Char)) (vals : List SqlValue) (rowid : Nat)
  | insertDefault (table : List Char) (rowid : Nat)
  | update (table : List Char) (sets : List (List Char × SqlValue)) (rowid : Nat)
  deriving Repr, DecidableEq

/-- Whether a statement is an UPDATE. -/
def Stmt.isUpdate : Stmt → Bool
  | .update _ _ _ => true
  | _ => false

/-- Runtime outcomes of the embedded code that the Rust source surfaces as
panics (unwrap, unreachable, todo) or database errors. -/
inductive Err where
  | panic (msg : List Char)
  | uniqueViolation (table : List Char)
  | failure (msg : List Char)
  | outOfFuel
  deriving Repr, DecidableEq

/-! ## The writer (src/db.rs lines 88-339)

Each embedded routine returns the list of SQL statements it executed, the
database state after them, and either a result or the error on which the
Rust original would have panicked; statements executed before the panic
stay visible, matching the auto-commit connection the source uses. -/

/-- Big-endian bytes of one primitive vector element, the per-element match
inside vector_to_bytes (src/db.rs lines 330-337). -/
def scalarBytes : AnnotatedMoveValue → Except Err (List Byte)
  | .bool_ b => .ok [if b then 1 else 0]
  | .u8 i => .ok [i]
  | .u64 i => .ok (beBytes 8 i)
  | .u128 i => .ok (beBytes 16 i)
  | _ => .error (.panic ("unreachable in vector_to_bytes").toList)

/-- The embedding of vector_to_bytes (src/db.rs lines 329-339): the
concatenated big-endian encodings of the elements. -/
def vector_to_bytes : List AnnotatedMoveValue → Except Err (List Byte)
  | [] => .ok []
  | v :: vs =>
    match scalarBytes v, vector_to_bytes vs with
    | .ok b, .ok bs => .ok (b ++ bs)
    | .error e, _ => .error e
    | _, .error e => .error e

/-- The slot column declaration of an element table, the match at the top
of vector_to_sql (src/db.rs lines 265-277): a blob slot for addresses and
for byte-string elements, an integer slot for struct elements, an empty
declaration for other vector elements, unreachable otherwise. -/
def vectorFieldDecl : TypeTag → Except Err (List Char)
  | .address => .ok ("slot BLOB NOT NULL").toList
  | .vector vty =>
    match vty with
    | .u8 => .ok ("slot BLOB NOT NULL").toList
    | _ => .ok []
  | .struct_ _ => .ok ("slot INTEGER NOT NULL").toList
  | _ => .error (.panic ("unreachable in vector_to_sql").toList)

mutual
/-- The embedding of struct_to_sql (src/db.rs lines 134-260): the first
field loop collects column names, declarations and values, recursing into
struct fields; a non-empty struct then creates its table, inserts its row
and fills element tables for its complex vector fields; an empty struct
creates a table with a bare id primary key and inserts a default row. The
returned Nat is last_insert_rowid of the struct row. -/
def struct_to_sql (s : AnnotatedMoveStruct) (db : Db) :
    List Stmt × Db × Except Err Nat :=
  match s with
  | .mk _ type_ value =>
    match fieldsLoop value db with
    | (stmts1, db1, .error e) => (stmts1, db1, .error e)
    | (stmts1, db1, .ok (field_names, fields, values)) =>
      if value.isEmpty then
        let tname := struct_tag_to_sql type_
        let db2 := db1.create tname
        let ins := db2.insertRow tname []
        (stmts1 ++ [.createTable tname [("id INTEGER PRIMARY KEY").toList],
          .insertDefault tname ins.2], ins.1, .ok ins.2)
      else
        let tname := struct_tag_to_sql type_
        let decls := ("__id INTEGER PRIMARY KEY").toList :: fields
        let db2 := db1.create tname
        let ins := db2.insertRow tname (field_names.zip values)
        let insStmt :=
          if field_names.isEmpty then Stmt.insertDefault tname ins.2
          else Stmt.insert tname field_names values ins.2
        match vectorsLoop type_ ins.2 value ins.1 with
        | (stmts2, db4, .error e) =>
          (stmts1 ++ [.createTable tname decls, insStmt] ++ stmts2, db4, .error e)
        | (stmts2, db4, .ok _) =>
          (stmts1 ++ [.createTable tname decls, insStmt] ++ stmts2, db4, .ok ins.2)

/-- The first field loop of struct_to_sql (src/db.rs lines 143-205),
concatenating the per-field contributions in declaration order. -/
def fieldsLoop (value : List (Ident × AnnotatedMoveValue)) (db : Db) :
    List Stmt × Db × Except Err (List (List Char) × List (List Char) × List SqlValue) :=
  match value with
  | [] => ([], db, .ok ([], [], []))
  | (ident, val) :: rest =>
    match fieldContrib ident val db with
    | (stmts1, db1, .error e) => (stmts1, db1, .error e)
    | (stmts1, db1, .ok (ns1, ds1, vs1)) =>
      match fieldsLoop rest db1 with
      | (stmts2, db2, .error e) => (stmts1 ++ stmts2, db2, .error e)
      | (stmts2, db2, .ok (ns2, ds2, vs2)) =>
        (stmts1 ++ stmts2, db2, .ok (ns1 ++ ns2, ds1 ++ ds2, vs1 ++ vs2))

/-- One arm of the first field loop: the column name, declaration and bound
value a field contributes, with struct fields recursively inserted first so
the contributed value is the child rowid. Complex vector fields contribute
nothing here. -/
def fieldContrib (ident : Ident) (val : AnnotatedMoveValue) (db : Db) :
    List Stmt × Db × Except Err (List (List Char) × List (List Char) × List SqlValue) :=
  match val with
  | .u8 i =>
    ([], db, .ok ([ident], [ident ++ (" INTEGER NOT NULL").toList], [.int (i : Int)]))
  | .u64 i =>
    ([], db, .ok ([ident], [ident ++ (" INTEGER NOT NULL").toList], [.int (i : Int)]))
  | .u128 i =>
    ([], db, .ok ([ident], [ident ++ (" BLOB NOT NULL").toList], [.blob (beBytes 16 i)]))
  | .bool_ b =>
    ([], db, .ok ([ident], [ident ++ (" BOOLEAN NOT NULL").toList], [.boolean b]))
  | .address a =>
    ([], db, .ok ([ident], [ident ++ (" BLOB NOT NULL").toList], [.blob a]))
  | .bytes bs =>
    ([], db, .ok ([ident], [ident ++ (" BLOB NOT NULL").toList], [.blob bs]))
  | .struct_ s =>
    match struct_to_sql s db with
    | (stmts, db1, .error e) => (stmts, db1, .error e)
    | (stmts, db1, .ok id) =>
      (stmts, db1, .ok ([ident], [ident ++ (" INTEGER NOT NULL").toList], [.int (id : Int)]))
  | .vector ty v =>
    match ty with
    | .bool | .u8 | .u64 | .u128 =>
      match vector_to_bytes v with
      | .error e => ([], db, .error e)
      | .ok bytes => ([], db, .ok ([ident], [ident ++ (" BLOB NOT NULL").toList], [.blob bytes]))
    | .signer => ([], db, .error (.panic ("unreachable Vector of Signer").toList))
    | .address => ([], db, .ok ([], [], []))
    | .vector _ => ([], db, .ok ([], [], []))
    | .struct_ _ => ([], db, .ok ([], [], []))

/-- The second field loop of struct_to_sql (src/db.rs lines 229-244):
complex vector fields populate their element tables after the parent row
exists. The call to vector_to_sql appears unfolded one step so that the
recursion stays structural; vector_to_sql below packages the same steps,
and vectorsLoop_cons_complex restates this arm through it. -/
def vectorsLoop (type_ : StructTag) (id : Nat)
    (value : List (Ident × AnnotatedMoveValue)) (db : Db) :
    List Stmt × Db × Except Err Unit :=
  match value with
  | [] => ([], db, .ok ())
  | (ident, val) :: rest =>
    match val with
    | .vector ty v =>
      match ty with
      | .address | .vector _ | .struct_ _ =>
        let step : List Stmt × Db × Except Err Unit :=
          match vectorFieldDecl ty with
          | .error e => ([], db, .error e)
          | .ok fd =>
            let name := vector_table_name type_ ident
            let decls := [("id INTEGER PRIMARY KEY").toList,
              ("parent_id INTEGER NOT NULL").toList, fd]
            let db1 := db.create name
            match elementsLoop name id v db1 with
            | (s, db2, r) => (Stmt.createTable name decls :: s, db2, r)
        match step with
        | (s1, db1, .error e) => (s1, db1, .error e)
        | (s1, db1, .ok _) =>
          match vectorsLoop type_ id rest db1 with
          | (s2, db2, r) => (s1 ++ s2, db2, r)
      | _ =>
        vectorsLoop type_ id rest db
    | _ => vectorsLoop type_ id rest db

/-- The element loop of vector_to_sql (src/db.rs lines 288-325): addresses and byte strings insert a
blob slot, struct elements insert first and store their rowid in the slot,
vector elements hit the todo macro and other shapes are unreachable. -/
def elementsLoop (name : List Char) (pid : Nat)
    (v : List AnnotatedMoveValue) (db : Db) : List Stmt × Db × Except Err Unit :=
  match v with
  | [] => ([], db, .ok ())
  | e :: rest =>
    match e with
    | .address a =>
      let ins := db.insertRow name
        [(("parent_id").toList, .int (pid : Int)), (("slot").toList, .blob a)]
      match elementsLoop name pid rest ins.1 with
      | (s2, db2, r) =>
        (Stmt.insert name [("parent_id").toList, ("slot").toList]
          [.int (pid : Int), .blob a] ins.2 :: s2, db2, r)
    | .struct_ s =>
      match struct_to_sql s db with
      | (s1, db1, .error e2) => (s1, db1, .error e2)
      | (s1, db1, .ok cid) =>
        let ins := db1.insertRow name
          [(("parent_id").toList, .int (pid : Int)), (("slot").toList, .int (cid : Int))]
        match elementsLoop name pid rest ins.1 with
        | (s2, db3, r) =>
          (s1 ++ Stmt.insert name [("parent_id").toList, ("slot").toList]
            [.int (pid : Int), .int (cid : Int)] ins.2 :: s2, db3, r)
    | .bytes b =>
      let ins := db.insertRow name
        [(("parent_id").toList, .int (pid : Int)), (("slot").toList, .blob b)]
      match elementsLoop name pid rest ins.1 with
      | (s2, db2, r) =>
        (Stmt.insert name [("parent_id").toList, ("slot").toList]
          [.int (pid : Int), .blob b] ins.2 :: s2, db2, r)
    | .vector _ _ => ([], db, .error (.panic ("todo vector of vectors").toList))
    | _ => ([], db, .error (.panic ("unreachable vector element").toList))
end

/-- The embedding of vector_to_sql (src/db.rs lines 262-327): create the
element table, then insert one row per element with the parent rowid, the
elements in order, struct elements recursively inserted first. -/
def vector_to_sql (name : List Char) (pid : Nat) (ty : TypeTag)
    (v : List AnnotatedMoveValue) (db : Db) : List Stmt × Db × Except Err Unit :=
  match vectorFieldDecl ty with
  | .error e => ([], db, .error e)
  | .ok fd =>
    let decls := [("id INTEGER PRIMARY KEY").toList,
      ("parent_id INTEGER NOT NULL").toList, fd]
    let db1 := db.create name
    match elementsLoop name pid v db1 with
    | (s, db2, r) => (Stmt.createTable name decls :: s, db2, r)

/-- The complex-vector arm of vectorsLoop is exactly a vector_to_sql call
followed by the loop on the remaining fields. -/
theorem vectorsLoop_cons_complex (type_ : StructTag) (id : Nat) (ident : Ident)
    (ty : TypeTag) (v : List AnnotatedMoveValue)
    (rest : List (Ident × AnnotatedMoveValue)) (db : Db)
    (h : ty = .address ∨ (∃ t, ty = .vector t) ∨ ∃ s, ty = .struct_ s) :
    vectorsLoop type_ id ((ident, .vector ty v) :: rest) db =
      match vector_to_sql (vector_table_name type_ ident) id ty v db with
      | (s1, db1, .error e) => (s1, db1, .error e)
      | (s1, db1, .ok _) =>
        match vectorsLoop type_ id rest db1 with
        | (s2, db2, r) => (s1 ++ s2, db2, r) := by
  rcases h with rfl | ⟨t, rfl⟩ | ⟨s, rfl⟩ <;> simp only [vectorsLoop, vector_to_sql]

/-- The embedding of generate_sql (src/db.rs lines 105-132): insert the
struct, then create the root table and map the account address to the
struct rowid. The root table declares the address column UNIQUE, so an
INSERT for an address already present fails, which the source unwraps into
a panic; the None arm of the source is a todo. -/
def generate_sql (address : List Byte) (value : Option AnnotatedMoveStruct) (db : Db) :
    List Stmt × Db × Except Err Unit :=
  match value with
  | none => ([], db, .error (.panic ("todo generate_sql deletion").toList))
  | some s =>
    match struct_to_sql s db with
    | (s1, db1, .error e) => (s1, db1, .error e)
    | (s1, db1, .ok id) =>
      let rname := root_table_name s.type_
      let rdecls := [("address BLOB UNIQUE NOT NULL").toList, ("id INTEGER NOT NULL").toList]
      let db2 := db1.create rname
      let rcols := [("address").toList, ("id").toList]
      let rvals : List SqlValue := [.blob address, .int (id : Int)]
      if (db2.rows rname).any
          (fun r => r.lookup ("address").toList == some (.blob address)) then
        (s1 ++ [.createTable rname rdecls, .insert rname rcols rvals 0],
          db2, .error (.uniqueViolation rname))
      else
        let ins := db2.insertRow rname (rcols.zip rvals)
        (s1 ++ [.createTable rname rdecls, .insert rname rcols rvals ins.2], ins.1, .ok ())

/-- The embedding of DB::store (src/db.rs lines 88-93): the passed tag is
only printed; the write is generate_sql on the annotated struct. -/
def store (address : List Byte) (tag : StructTag) (data : AnnotatedMoveStruct) (db : Db) :
    List Stmt × Db × Except Err Unit :=
  generate_sql address (some data) db

example :
    (struct_to_sql
      (.mk true (.mk [1] ("M").toList ("S").toList []) [(("a").toList, .u64 7)])
      Db.empty).1 =
    [.createTable ("x1__M__S").toList
        [("__id INTEGER PRIMARY KEY").toList, ("a INTEGER NOT NULL").toList],
      .insert ("x1__M__S").toList [("a").toList] [.int 7] 1] := by
  decide

example :
    (struct_to_sql
      (.mk true (.mk [1] ("M").toList ("S").toList []) [(("a").toList, .u64 7)])
      Db.empty).2.2 = .ok 1 := rfl

/-! ## The reader (src/db.rs lines 376-687)

fetch_struct resolves the tag through resolver::resolve_struct, which reads
the fixed __module table; since the writer never touches that table the
resolution is embedded as a function parameter from struct tags to
normalized structs. Recursion through child rows is not structurally
bounded, so the embedding carries a fuel parameter; every Rust unwrap,
unreachable and todo on this path becomes an error value. -/

/-- One field of struct_columns (src/db.rs lines 518-567): the column name
when the field is materialized inline, nothing for a complex vector,
an error for the unreachable storage types and for a type parameter index
outside the tag. -/
def columnOfField (tag : StructTag) (field : NField) : Except Err (Option Ident) :=
  match field.type_ with
  | .signer | .reference _ | .mutableReference _ =>
    .error (.panic ("unreachable in struct_columns").toList)
  | .vector sub =>
    match sub with
    | .u8 => .ok (some field.name)
    | _ => .ok none
  | .typeParameter i =>
    match tag.type_params.get? i with
    | none => .error (.panic ("type parameter index out of bounds").toList)
    | some tp =>
      match tp with
      | .signer => .error (.panic ("unreachable in struct_columns").toList)
      | .vector sub =>
        match sub with
        | .u8 => .ok (some field.name)
        | _ => .ok none
      | _ => .ok (some field.name)
  | _ => .ok (some field.name)

/-- struct_columns over the field list. -/
def columnsOfFields (tag : StructTag) : List NField → Except Err (List Ident)
  | [] => .ok []
  | f :: rest =>
    match columnOfField tag f, columnsOfFields tag rest with
    | .error e, _ => .error e
    | .ok _, .error e => .error e
    | .ok none, .ok cs => .ok cs
    | .ok (some c), .ok cs => .ok (c :: cs)

/-- The embedding of struct_columns (src/db.rs lines 518-567): the SELECT
column list, a subset of the field names in declaration order. -/
def struct_columns (tag : StructTag) (struct_ : NStruct) : Except Err (List Ident) :=
  match struct_ with
  | .mk fields => columnsOfFields tag fields

/-- Value of the select-list column at a position of the fetched row, the
embedding of row.get(column_index). -/
def rowGet (cols : List Ident) (row : Row) (idx : Nat) : Except Err SqlValue :=
  match cols.get? idx with
  | none => .error (.panic ("column index out of range").toList)
  | some c =>
    match row.lookup c with
    | none => .error (.panic ("no such column").toList)
    | some v => .ok v

/-- Decode an integer column, as row.get with an i64 target. -/
def getInt : SqlValue → Except Err Int
  | .int i => .ok i
  | _ => .error (.panic ("column decode failed for INTEGER").toList)

/-- Decode a boolean column. -/
def getBool : SqlValue → Except Err Bool
  | .boolean b => .ok b
  | _ => .error (.panic ("column decode failed for BOOLEAN").toList)

/-- Decode a blob column. -/
def getBlob : SqlValue → Except Err (List Byte)
  | .blob bs => .ok bs
  | _ => .error (.panic ("column decode failed for BLOB").toList)

/-- The Rust cast of an i64 to a u8: the low eight bits. -/
def castU8 (i : Int) : Nat := (i % 256).toNat

/-- The Rust cast of an i64 to a u64: the value modulo two to the 64. -/
def castU64 (i : Int) : Nat := (i % (2 ^ 64 : Nat)).toNat

/-- The embedding of u128::from_be_bytes applied through try_into, which
unwraps only a sixteen byte blob. -/
def u128FromBlob (bs : List Byte) : Except Err Nat :=
  if bs.length = 16 then .ok (fromBeBytes bs)
  else .error (.panic ("try_into sixteen bytes failed").toList)

/-- The embedding of AccountAddress::try_from on raw bytes, which the
reader unwraps; Diem account addresses hold sixteen bytes. -/
def addressFromBlob (bs : List Byte) : Except Err (List Byte) :=
  if bs.length = 16 then .ok bs
  else .error (.panic ("AccountAddress try_from failed").toList)

/-- The embedding of ElementKind (src/db.rs lines 677-686). -/
inductive ElementKind where
  | bool : ElementKind
  | u8 : ElementKind
  | u64 : ElementKind
  | u128 : ElementKind
  | address : ElementKind
  | struct_ : ElementKind
  | bytes : ElementKind
  | vector (t : TypeTag) : ElementKind

/-- The element-kind computation at the top of fetch_vector (src/db.rs
lines 578-627). -/
def elementKindOf (tag : StructTag) (elem : NType) : Except Err ElementKind :=
  match elem with
  | .signer | .reference _ | .mutableReference _ =>
    .error (.panic ("unreachable in fetch_vector").toList)
  | .vector sub =>
    match sub with
    | .signer | .reference _ | .mutableReference _ =>
      .error (.panic ("unreachable in fetch_vector").toList)
    | .u8 => .ok .bytes
    | _ =>
      match sub.into_type_tag with
      | none => .error (.panic ("into_type_tag failed").toList)
      | some tt => .ok (.vector tt)
  | .typeParameter i =>
    match tag.type_params.get? i with
    | none => .error (.panic ("type parameter index out of bounds").toList)
    | some tp =>
      match tp with
      | .signer => .error (.panic ("unreachable in fetch_vector").toList)
      | .vector sub =>
        match sub with
        | .u8 => .ok .bytes
        | _ => .ok (.vector sub)
      | .bool => .ok .bool
      | .u8 => .ok .u8
      | .u64 => .ok .u64
      | .u128 => .ok .u128
      | .address => .ok .address
      | .struct_ _ => .ok .struct_
  | .bool => .ok .bool
  | .u8 => .ok .u8
  | .u64 => .ok .u64
  | .u128 => .ok .u128
  | .address => .ok .address
  | .struct_ _ _ _ _ => .ok .struct_

/-- Decode one slot value of an element table row according to the element
kind (src/db.rs lines 644-669); struct elements hit the todo macro. -/
def decodeSlot (kind : ElementKind) (slot : Option SqlValue) : Except Err MoveValue :=
  match slot with
  | none => .error (.panic ("no slot column").toList)
  | some v =>
    match kind with
    | .bool =>
      match getBool v with
      | .error e => .error e
      | .ok b => .ok (.bool_ b)
    | .u8 =>
      match getInt v with
      | .error e => .error e
      | .ok i => .ok (.u8 (castU8 i))
    | .u64 =>
      match getInt v with
      | .error e => .error e
      | .ok i => .ok (.u64 (castU64 i))
    | .u128 =>
      match getBlob v with
      | .error e => .error e
      | .ok bs =>
        match u128FromBlob bs with
        | .error e => .error e
        | .ok n => .ok (.u128 n)
    | .address =>
      match getBlob v with
      | .error e => .error e
      | .ok bs =>
        match addressFromBlob bs with
        | .error e => .error e
        | .ok a => .ok (.address a)
    | .bytes =>
      match getBlob v with
      | .error e => .error e
      | .ok bs => .ok (.vector (eraseBytes bs))
    | .struct_ => .error (.panic ("todo struct element").toList)
    | .vector _ => .error (.panic ("unreachable element kind").toList)

/-- decodeSlot over the selected rows. -/
def decodeSlots (kind : ElementKind) : List (Option SqlValue) → Except Err (List MoveValue)
  | [] => .ok []
  | s :: rest =>
    match decodeSlot kind s, decodeSlots kind rest with
    | .error e, _ => .error e
    | .ok _, .error e => .error e
    | .ok v, .ok vs => .ok (v :: vs)

/-- The embedding of fetch_vector (src/db.rs lines 569-675): select the
slots of the element table rows with the parent id and decode them; a
vector element kind hits the todo macro, and a SELECT on a table that was
never created fails, which the source unwraps. -/
def fetch_vector (tag : StructTag) (id : Nat) (field_name : Ident)
    (elem : NType) (db : Db) : Except Err (List MoveValue) :=
  let table_name := vector_table_name tag field_name
  match elementKindOf tag elem with
  | .error e => .error e
  | .ok (.vector _) => .error (.panic ("todo vector elements").toList)
  | .ok kind =>
    match db table_name with
    | none => .error (.panic ("no such table").toList)
    | some _ => decodeSlots kind (db.slots table_name id)

mutual
/-- The embedding of fetch_struct (src/db.rs lines 376-514): resolve the
tag, select the materialized columns of the row at the id, and rebuild the
Move value field by field. A malformed empty select list and a missing row
both surface the unwrap on fetch_one. -/
def fetch_struct (resolve : StructTag → Option NStruct) :
    Nat → StructTag → Nat → Db → Except Err MoveValue
  | 0, _, _, _ => .error .outOfFuel
  | fuel + 1, tag, id, db =>
    match resolve tag with
    | none => .error (.panic ("resolve_struct failed").toList)
    | some struct_ =>
      match struct_columns tag struct_ with
      | .error e => .error e
      | .ok cols =>
        if cols.isEmpty then .error (.panic ("malformed select").toList)
        else
          match db.rowAt (struct_tag_to_sql tag) id with
          | none => .error (.panic ("no rows returned").toList)
          | some row =>
            match fieldsRead resolve fuel tag id cols row 0 struct_.fields db with
            | .error e => .error e
            | .ok fields => .ok (.struct_ (.mk fields))

/-- The field loop of fetch_struct (src/db.rs lines 398-510), advancing the
column index only for fields that own a column. -/
def fieldsRead (resolve : StructTag → Option NStruct) :
    Nat → StructTag → Nat → List Ident → Row → Nat → List NField → Db →
      Except Err (List MoveValue)
  | 0, _, _, _, _, _, _, _ => .error .outOfFuel
  | _ + 1, _, _, _, _, _, [], _ => .ok []
  | fuel + 1, tag, id, cols, row, idx, f :: rest, db =>
    match f.type_ with
    | .signer | .reference _ | .mutableReference _ =>
      .error (.panic ("unreachable field type").toList)
    | .vector sub =>
      match sub with
      | .u8 =>
        match rowGet cols row idx with
        | .error e => .error e
        | .ok v =>
          match getBlob v with
          | .error e => .error e
          | .ok bytes =>
            match fieldsRead resolve fuel tag id cols row (idx + 1) rest db with
            | .error e => .error e
            | .ok fs => .ok (.vector (eraseBytes bytes) :: fs)
      | _ =>
        match fetch_vector tag id f.name sub db with
        | .error e => .error e
        | .ok v =>
          match fieldsRead resolve fuel tag id cols row idx rest db with
          | .error e => .error e
          | .ok fs => .ok (.vector v :: fs)
    | .typeParameter i =>
      match tag.type_params.get? i with
      | none => .error (.panic ("type parameter index out of bounds").toList)
      | some tp =>
        match tp with
        | .signer => .error (.panic ("unreachable field type").toList)
        | .vector _ => .error (.panic ("vectors todo").toList)
        | .bool =>
          match rowGet cols row idx with
          | .error e => .error e
          | .ok v =>
            match getBool v with
            | .error e => .error e
            | .ok b =>
              match fieldsRead resolve fuel tag id cols row (idx + 1) rest db with
              | .error e => .error e
              | .ok fs => .ok (.bool_ b :: fs)
        | .u8 =>
          match rowGet cols row idx with
          | .error e => .error e
          | .ok v =>
            match getInt v with
            | .error e => .error e
            | .ok n =>
              match fieldsRead resolve fuel tag id cols row (idx + 1) rest db with
              | .error e => .error e
              | .ok fs => .ok (.u8 (castU8 n) :: fs)
        | .u64 =>
          match rowGet cols row idx with
          | .error e => .error e
          | .ok v =>
            match getInt v with
            | .error e => .error e
            | .ok n =>
              match fieldsRead resolve fuel tag id cols row (idx + 1) rest db with
              | .error e => .error e
              | .ok fs => .ok (.u64 (castU64 n) :: fs)
        | .u128 =>
          match rowGet cols row idx with
          | .error e => .error e
          | .ok v =>
            match getBlob v with
            | .error e => .error e
            | .ok bs =>
              match u128FromBlob bs with
              | .error e => .error e
              | .ok n =>
                match fieldsRead resolve fuel tag id cols row (idx + 1) rest db with
                | .error e => .error e
                | .ok fs => .ok (.u128 n :: fs)
        | .address =>
          match rowGet cols row idx with
          | .error e => .error e
          | .ok v =>
            match getBlob v with
            | .error e => .error e
            | .ok bs =>
              match addressFromBlob bs with
              | .error e => .error e
              | .ok a =>
                match fieldsRead resolve fuel tag id cols row (idx + 1) rest db with
                | .error e => .error e
                | .ok fs => .ok (.address a :: fs)
        | .struct_ sub_tag =>
          match rowGet cols row idx with
          | .error e => .error e
          | .ok v =>
            match getInt v with
            | .error e => .error e
            | .ok sub_id =>
              match fetch_struct resolve fuel sub_tag sub_id.toNat db with
              | .error e => .error e
              | .ok value =>
                match fieldsRead resolve fuel tag id cols row (idx + 1) rest db with
                | .error e => .error e
                | .ok fs => .ok (value :: fs)
    | .bool =>
      match rowGet cols row idx with
      | .error e => .error e
      | .ok v =>
        match getBool v with
        | .error e => .error e
        | .ok b =>
          match fieldsRead resolve fuel tag id cols row (idx + 1) rest db with
          | .error e => .error e
          | .ok fs => .ok (.bool_ b :: fs)
    | .u8 =>
      match rowGet cols row idx with
      | .error e => .error e
      | .ok v =>
        match getInt v with
        | .error e => .error e
        | .ok n =>
          match fieldsRead resolve fuel tag id cols row (idx + 1) rest db with
          | .error e => .error e
          | .ok fs => .ok (.u8 (castU8 n) :: fs)
    | .u64 =>
      match rowGet cols row idx with
      | .error e => .error e
      | .ok v =>
        match getInt v with
        | .error e => .error e
        | .ok n =>
          match fieldsRead resolve fuel tag id cols row (idx + 1) rest db with
          | .error e => .error e
          | .ok fs => .ok (.u64 (castU64 n) :: fs)
    | .u128 =>
      match rowGet cols row idx with
      | .error e => .error e
      | .ok v =>
        match getBlob v with
        | .error e => .error e
        | .ok bs =>
          match u128FromBlob bs with
          | .error e => .error e
          | .ok n =>
            match fieldsRead resolve fuel tag id cols row (idx + 1) rest db with
            | .error e => .error e
            | .ok fs => .ok (.u128 n :: fs)
    | .address =>
      match rowGet cols row idx with
      | .error e => .error e
      | .ok v =>
        match getBlob v with
        | .error e => .error e
        | .ok bs =>
          match addressFromBlob bs with
          | .error e => .error e
          | .ok a =>
            match fieldsRead resolve fuel tag id cols row (idx + 1) rest db with
            | .error e => .error e
            | .ok fs => .ok (.address a :: fs)
    | .struct_ a m n targs =>
      match intoTypeTagList targs with
      | none => .error (.panic ("into_type_tag failed").toList)
      | some tts =>
        match rowGet cols row idx with
        | .error e => .error e
        | .ok v =>
          match getInt v with
          | .error e => .error e
          | .ok sub_id =>
            match fetch_struct resolve fuel (.mk a m n tts) sub_id.toNat db with
            | .error e => .error e
            | .ok value =>
              match fieldsRead resolve fuel tag id cols row (idx + 1) rest db with
              | .error e => .error e
              | .ok fs => .ok (value :: fs)
end

/-- The root lookup of the state view (src/state.rs lines 78-101): the id
column of the first root-table row whose address column equals the account
address. -/
def lookupRoot (db : Db) (tag : StructTag) (address : List Byte) : Option Nat :=
  match (db.rows (root_table_name tag)).find?
      (fun r => r.lookup ("address").toList == some (.blob address)) with
  | none => none
  | some r =>
    match r.lookup ("id").toList with
    | some (.int i) => some i.toNat
    | _ => none

/-! ## Resolved types (src/fat_type.rs)

The FatType enum in src/fat_type.rs declares Bool, U8, U64, U128, Address,
Vector, Struct and TyParam. The resolver in src/resolver.rs additionally
writes FatType::Signer for the Signer type tag and the Signer signature
token, a variant the enum does not declare; the embedding includes that
variant so the resolver matches embed as written, treating it like the
other primitives wherever fat_type.rs treats every remaining variant
uniformly. Errors built with anyhow or PartialVMError become failure
values. -/

mutual
/-- The embedding of FatType. -/
inductive FatType where
  | bool : FatType
  | u8 : FatType
  | u64 : FatType
  | u128 : FatType
  | address : FatType
  | vector (t : FatType) : FatType
  | struct_ (s : FatStructType) : FatType
  | tyParam (i : Nat) : FatType
  | signer : FatType
  deriving Repr

/-- The embedding of FatStructType. -/
inductive FatStructType where
  | mk (address : List Byte) (module : Ident) (name : Ident)
      (is_resource : Bool) (ty_args : List FatType)
      (fields : List (Ident × FatType)) : FatStructType
  deriving Repr
end

/-- Resource flag of a resolved struct. -/
def FatStructType.is_resource : FatStructType → Bool
  | .mk _ _ _ r _ _ => r

/-- Field list of a resolved struct. -/
def FatStructType.fields : FatStructType → List (Ident × FatType)
  | .mk _ _ _ _ _ fs => fs

mutual
/-- The embedding of FatType::subst (src/fat_type.rs lines 80-108). The
Signer variant substitutes to itself like every declared primitive. -/
def FatType.subst (ty_args : List FatType) : FatType → Except Err FatType
  | .tyParam idx =>
    match ty_args.get? idx with
    | some ty => .ok ty
    | none => .error (.failure ("fat type substitution failed").toList)
  | .bool => .ok .bool
  | .u8 => .ok .u8
  | .u64 => .ok .u64
  | .u128 => .ok .u128
  | .address => .ok .address
  | .signer => .ok .signer
  | .vector ty =>
    match FatType.subst ty_args ty with
    | .error e => .error e
    | .ok t => .ok (.vector t)
  | .struct_ s =>
    match FatStructType.subst ty_args s with
    | .error e => .error e
    | .ok s2 => .ok (.struct_ s2)

/-- The embedding of FatStructType::subst (src/fat_type.rs lines 40-62). -/
def FatStructType.subst (ty_args : List FatType) : FatStructType → Except Err FatStructType
  | .mk a m n r args fields =>
    match substList ty_args args, substFields ty_args fields with
    | .ok args2, .ok fields2 => .ok (.mk a m n r args2 fields2)
    | .error e, _ => .error e
    | _, .error e => .error e

/-- Substitution over a type argument list. -/
def substList (ty_args : List FatType) : List FatType → Except Err (List FatType)
  | [] => .ok []
  | t :: ts =>
    match FatType.subst ty_args t, substList ty_args ts with
    | .ok t2, .ok ts2 => .ok (t2 :: ts2)
    | .error e, _ => .error e
    | _, .error e => .error e

/-- Substitution over a field list. -/
def substFields (ty_args : List FatType) :
    List (Ident × FatType) → Except Err (List (Ident × FatType))
  | [] => .ok []
  | (id, t) :: ts =>
    match FatType.subst ty_args t, substFields ty_args ts with
    | .ok t2, .ok ts2 => .ok ((id, t2) :: ts2)
    | .error e, _ => .error e
    | _, .error e => .error e
end

mutual
/-- The embedding of FatType::type_tag (src/fat_type.rs lines 110-130);
TyParam cannot become a tag, and the Signer variant used by the resolver
corresponds to TypeTag::Signer. -/
def FatType.type_tag : FatType → Except Err TypeTag
  | .bool => .ok .bool
  | .u8 => .ok .u8
  | .u64 => .ok .u64
  | .u128 => .ok .u128
  | .address => .ok .address
  | .signer => .ok .signer
  | .vector ty =>
    match FatType.type_tag ty with
    | .error e => .error e
    | .ok t => .ok (.vector t)
  | .struct_ s =>
    match FatStructType.struct_tag s with
    | .error e => .error e
    | .ok t => .ok (.struct_ t)
  | .tyParam _ => .error (.failure ("cannot derive type tag").toList)

/-- The embedding of FatStructType::struct_tag (src/fat_type.rs lines
64-76). -/
def FatStructType.struct_tag : FatStructType → Except Err StructTag
  | .mk a m n _ args _ =>
    match typeTagList args with
    | .error e => .error e
    | .ok tts => .ok (.mk a m n tts)

/-- type_tag over a type argument list. -/
def typeTagList : List FatType → Except Err (List TypeTag)
  | [] => .ok []
  | t :: ts =>
    match FatType.type_tag t, typeTagList ts with
    | .ok t2, .ok ts2 => .ok (t2 :: ts2)
    | .error e, _ => .error e
    | _, .error e => .error e
end

/-! ## The resolver (src/resolver.rs)

resolve_struct walks the module store; its behavior is abstracted as a
function argument wherever the embedded code calls it. -/

/-- The embedding of Resolver::resolve_type (src/resolver.rs lines 68-81),
with Resolver::resolve_struct abstracted as the argument rs. Every arm is
total except the struct arm, which propagates resolution failures; the
Signer tag maps to the Signer variant. -/
def resolve_type (rs : StructTag → Except Err FatStructType) : TypeTag → Except Err FatType
  | .address => .ok .address
  | .signer => .ok .signer
  | .bool => .ok .bool
  | .struct_ s =>
    match rs s with
    | .error e => .error e
    | .ok f => .ok (.struct_ f)
  | .u8 => .ok .u8
  | .u64 => .ok .u64
  | .u128 => .ok .u128
  | .vector t =>
    match resolve_type rs t with
    | .error e => .error e
    | .ok f => .ok (.vector f)

/-- The embedding of vm::file_format::SignatureToken as consumed by
Resolver::resolve_signature; struct handles are abstracted to an index. -/
inductive SignatureToken where
  | bool : SignatureToken
  | u8 : SignatureToken
  | u64 : SignatureToken
  | u128 : SignatureToken
  | address : SignatureToken
  | signer : SignatureToken
  | vector (t : SignatureToken) : SignatureToken
  | struct_ (idx : Nat) : SignatureToken
  | structInstantiation (idx : Nat) (toks : List SignatureToken) : SignatureToken
  | typeParameter (idx : Nat) : SignatureToken
  | reference (t : SignatureToken) : SignatureToken
  | mutableReference (t : SignatureToken) : SignatureToken
  deriving Repr

mutual
/-- The embedding of Resolver::resolve_signature (src/resolver.rs lines
111-148), with Resolver::resolve_struct_handle abstracted as the argument
rh. The Signer token maps to the Signer variant; references fail. -/
def resolve_signature (rh : Nat → Except Err FatStructType) :
    SignatureToken → Except Err FatType
  | .bool => .ok .bool
  | .u8 => .ok .u8
  | .u64 => .ok .u64
  | .u128 => .ok .u128
  | .address => .ok .address
  | .signer => .ok .signer
  | .vector ty =>
    match resolve_signature rh ty with
    | .error e => .error e
    | .ok t => .ok (.vector t)
  | .struct_ idx =>
    match rh idx with
    | .error e => .error e
    | .ok s => .ok (.struct_ s)
  | .structInstantiation idx toks =>
    match rh idx with
    | .error e => .error e
    | .ok struct_ty =>
      match resolveSignatureList rh toks with
      | .error e => .error e
      | .ok args =>
        match FatStructType.subst args struct_ty with
        | .error _ => .error (.failure ("substitution failure").toList)
        | .ok s => .ok (.struct_ s)
  | .typeParameter idx => .ok (.tyParam idx)
  | .reference _ => .error (.failure ("unexpected reference").toList)
  | .mutableReference _ => .error (.failure ("unexpected reference").toList)

/-- resolve_signature over an instantiation argument list. -/
def resolveSignatureList (rh : Nat → Except Err FatStructType) :
    List SignatureToken → Except Err (List FatType)
  | [] => .ok []
  | t :: ts =>
    match resolve_signature rh t, resolveSignatureList rh ts with
    | .ok t2, .ok ts2 => .ok (t2 :: ts2)
    | .error e, _ => .error e
    | _, .error e => .error e
end

/-! ## The annotator (src/annotator.rs lines 80-139) -/

mutual
/-- The embedding of MoveValueAnnotator::annotate_value (src/annotator.rs
lines 99-139): matching value and type constructors annotate recursively,
a vector under element type U8 collects into Bytes, and every other
combination is the catch-all anyhow error. -/
def annotate_value : MoveValue → FatType → Except Err AnnotatedMoveValue
  | .bool_ b, .bool => .ok (.bool_ b)
  | .u8 i, .u8 => .ok (.u8 i)
  | .u64 i, .u64 => .ok (.u64 i)
  | .u128 i, .u128 => .ok (.u128 i)
  | .address a, .address => .ok (.address a)
  | .vector a, .vector ty =>
    match ty with
    | .u8 =>
      match annotateBytes a with
      | .error e => .error e
      | .ok bs => .ok (.bytes bs)
    | _ =>
      match FatType.type_tag ty with
      | .error _ => .error (.panic ("type_tag unwrap failed").toList)
      | .ok tt =>
        match annotateList a ty with
        | .error e => .error e
        | .ok vals => .ok (.vector tt vals)
  | .struct_ s, .struct_ ty =>
    match annotate_struct s ty with
    | .error e => .error e
    | .ok s2 => .ok (.struct_ s2)
  | _, _ => .error (.failure ("Cannot annotate value with type").toList)

/-- The byte collection inside the Bytes arm: every element must be a U8
value. -/
def annotateBytes : List MoveValue → Except Err (List Byte)
  | [] => .ok []
  | .u8 i :: rest =>
    match annotateBytes rest with
    | .error e => .error e
    | .ok bs => .ok (i :: bs)
  | _ :: _ => .error (.failure ("unexpected value type").toList)

/-- annotate_value over vector elements, against the one element type. -/
def annotateList : List MoveValue → FatType → Except Err (List AnnotatedMoveValue)
  | [], _ => .ok []
  | v :: vs, ty =>
    match annotate_value v ty with
    | .error e => .error e
    | .ok a =>
      match annotateList vs ty with
      | .error e => .error e
      | .ok as_ => .ok (a :: as_)

/-- The embedding of MoveValueAnnotator::annotate_struct (src/annotator.rs
lines 80-97): derive the struct tag, then zip the resolved field list with
the value fields; the zip silently stops at the shorter list. -/
def annotate_struct : MoveStruct → FatStructType → Except Err AnnotatedMoveStruct
  | .mk fields, ty =>
    match FatStructType.struct_tag ty with
    | .error e => .error e
    | .ok struct_tag =>
      match annotateFields ty.fields fields with
      | .error e => .error e
      | .ok annotated_fields =>
        .ok (.mk ty.is_resource struct_tag annotated_fields)

/-- The zip loop of annotate_struct: pairs are consumed while both lists
have elements, exactly as iter().zip(). -/
def annotateFields : List (Ident × FatType) → List MoveValue →
    Except Err (List (Ident × AnnotatedMoveValue))
  | _, [] => .ok []
  | [], _ :: _ => .ok []
  | (id, ty) :: tys, v :: vs =>
    match annotate_value v ty with
    | .error e => .error e
    | .ok a =>
      match annotateFields tys vs with
      | .error e => .error e
      | .ok rest => .ok ((id, a) :: rest)
end

section SmokeTest

example :
    (let addr : List Byte := [0, 0, 0, 0, 0, 0, 0, 0, 0, 0, 0, 0, 0, 0, 0, 10]
    let tag : StructTag := .mk [1] ("M").toList ("S").toList []
    let s : AnnotatedMoveStruct := .mk true tag
      [(("a").toList, .u64 7), (("b").toList, .bytes [1, 2]),
        (("c").toList, .vector .address [.address (List.replicate 16 3)])]
    let resolve : StructTag → Option NStruct := fun _ =>
      some ⟨[⟨("a").toList, .u64⟩, ⟨("b").toList, .vector .u8⟩,
        ⟨("c").toList, .vector .address⟩]⟩
    let run := store addr tag s Db.empty
    match lookupRoot run.2.1 tag addr with
    | none => none
    | some id => some (fetch_struct resolve 9 tag id run.2.1)) =
      some (.ok (.struct_ (.mk [.u64 7, .vector [.u8 1, .u8 2],
        .vector [.address (List.replicate 16 3)]]))) := rfl

end SmokeTest

/-! ## Facts about the big-endian encodings -/

/-- beBytes always produces exactly its width in bytes. -/
theorem beBytes_length (w : Nat) : ∀ v : Nat, (beBytes w v).length = w := by
  induction w with
  | zero => intro v; rfl
  | succ w ih => intro v; simp [beBytes, ih]

/-- Appending one byte shifts the decoded value by one base-256 digit. -/
theorem fromBeBytes_snoc (bs : List Byte) (b : Byte) :
    fromBeBytes (bs ++ [b]) = fromBeBytes bs * 256 + b := by
  simp [fromBeBytes, List.foldl_append]

/-- The big-endian encoding decodes back to the value it encodes whenever
the value fits the width. -/
theorem fromBe_beBytes (w : Nat) : ∀ v : Nat, v < 256 ^ w → fromBeBytes (beBytes w v) = v := by
  induction w with
  | zero =>
    intro v hv
    interval_cases v
    rfl
  | succ w ih =>
    intro v hv
    have hdiv : v / 256 < 256 ^ w := by
      apply Nat.div_lt_of_lt_mul
      calc v < 256 ^ (w + 1) := hv
        _ = 256 * 256 ^ w := by ring
    calc fromBeBytes (beBytes (w + 1) v)
        = fromBeBytes (beBytes w (v / 256) ++ [v % 256]) := rfl
      _ = fromBeBytes (beBytes w (v / 256)) * 256 + v % 256 := fromBeBytes_snoc _ _
      _ = v / 256 * 256 + v % 256 := by rw [ih _ hdiv]
      _ = v := by omega

/-- Every byte beBytes produces is below 256. -/
theorem beBytes_lt (w : Nat) : ∀ v : Nat, ∀ b ∈ beBytes w v, b < 256 := by
  induction w with
  | zero => intro v b hb; simp [beBytes] at hb
  | succ w ih =>
    intro v b hb
    simp only [beBytes, List.mem_append, List.mem_singleton] at hb
    rcases hb with hb | rfl
    · exact ih _ _ hb
    · exact Nat.mod_lt _ (by norm_num)

/-- A byte list decodes and re-encodes to itself at its own length when
every entry is a byte. -/
theorem beBytes_fromBe (bs : List Byte) (h : ∀ b ∈ bs, b < 256) :
    beBytes bs.length (fromBeBytes bs) = bs := by
  induction bs using List.reverseRecOn with
  | nil => rfl
  | append_singleton bs b ih =>
    have hb : b < 256 := h b (by simp)
    have hbs : ∀ x ∈ bs, x < 256 := fun x hx => h x (by simp [hx])
    have hlen : (bs ++ [b]).length = bs.length + 1 := by simp
    rw [hlen, fromBeBytes_snoc]
    show beBytes bs.length ((fromBeBytes bs * 256 + b) / 256) ++
      [(fromBeBytes bs * 256 + b) % 256] = bs ++ [b]
    have h1 : (fromBeBytes bs * 256 + b) / 256 = fromBeBytes bs := by
      rw [Nat.add_comm, Nat.add_mul_div_right _ _ (by norm_num : (0 : ℕ) < 256),
        Nat.div_eq_of_lt hb, Nat.zero_add]
    have h2 : (fromBeBytes bs * 256 + b) % 256 = b := by
      omega
    rw [h1, h2, ih hbs]

/-! ## Claim C7: primitive vectors are stored as one big-endian blob -/

/-- C7: a field holding a vector of Bool, U8, U64 or U128 contributes one
BLOB NOT NULL column bound to the vector_to_bytes encoding; that encoding
concatenates the per-element big-endian encodings, one byte 0 or 1 for a
Bool, the element byte for a U8, eight bytes for a U64 and sixteen bytes
for a U128, each of exact width and decodable back to the value; in
particular the vector holding U64 5 becomes the eight byte blob
00 00 00 00 00 00 00 05. -/
theorem C7_primitive_vector_inline_blob
    (ident : Ident) (ty : TypeTag) (elems : List AnnotatedMoveValue)
    (bytes : List Byte) (db : Db)
    (hty : ty = .bool ∨ ty = .u8 ∨ ty = .u64 ∨ ty = .u128)
    (henc : vector_to_bytes elems = .ok bytes) :
    fieldContrib ident (.vector ty elems) db =
      ([], db, .ok ([ident], [ident ++ (" BLOB NOT NULL").toList], [.blob bytes])) ∧
    (∀ b, scalarBytes (.bool_ b) = .ok [if b then 1 else 0]) ∧
    (∀ i, scalarBytes (.u8 i) = .ok [i]) ∧
    (∀ i, scalarBytes (.u64 i) = .ok (beBytes 8 i)) ∧
    (∀ i, scalarBytes (.u128 i) = .ok (beBytes 16 i)) ∧
    (∀ w v, (beBytes w v).length = w) ∧
    (∀ w v, v < 256 ^ w → fromBeBytes (beBytes w v) = v) ∧
    (∀ v vs b bs2, scalarBytes v = .ok b → vector_to_bytes vs = .ok bs2 →
      vector_to_bytes (v :: vs) = .ok (b ++ bs2)) ∧
    vector_to_bytes [.u64 5] = .ok [0, 0, 0, 0, 0, 0, 0, 5] := by
  refine ⟨?_, fun b => rfl, fun i => rfl, fun i => rfl, fun i => rfl,
    fun w v => beBytes_length w v, fun w v h => fromBe_beBytes w v h, ?_, rfl⟩
  · rcases hty with rfl | rfl | rfl | rfl <;> simp [fieldContrib, henc]
  · intro v vs b bs2 h1 h2
    simp [vector_to_bytes, h1, h2]

/-- Witness for C7 at the concrete Option scenario of the specification:
the vec field of value Vector U64 [5] becomes the blob 00..05. -/
theorem C7_primitive_vector_inline_blob_witness :
    fieldContrib (("vec").toList) (.vector .u64 [.u64 5]) Db.empty =
      ([], Db.empty, .ok ([("vec").toList], [("vec").toList ++ (" BLOB NOT NULL").toList],
        [.blob [0, 0, 0, 0, 0, 0, 0, 5]])) :=
  (C7_primitive_vector_inline_blob (("vec").toList) .u64 [.u64 5]
    [0, 0, 0, 0, 0, 0, 0, 5] Db.empty (Or.inr (Or.inr (Or.inl rfl))) rfl).1

/-! ## Claim C5: the empty-struct table -/

/-- C5: the writer handles a struct with no fields through the else branch
of struct_to_sql, creating a table whose only column is declared
id INTEGER PRIMARY KEY, not __id as the specification requires and as the
reader
queries, and inserting through INSERT DEFAULT VALUES. -/
theorem C5_empty_struct_bare_id_column :
    (struct_to_sql (.mk true (.mk [1] ("M").toList ("Empty").toList []) [])
        Db.empty).1 =
      [.createTable ("x1__M__Empty").toList [("id INTEGER PRIMARY KEY").toList],
        .insertDefault ("x1__M__Empty").toList 1] ∧
    (struct_to_sql (.mk true (.mk [1] ("M").toList ("Empty").toList []) [])
        Db.empty).2.2 = .ok 1 := by
  exact ⟨by decide, rfl⟩

/-! ## Claim C10: type parameters instantiated at vector types -/

/-- C10: for a struct whose field has declared type TypeParameter 0 under a
tag instantiating it at Vector of U8, the write succeeds with the field as
an inline BLOB column, struct_columns lists that column in the select
list, and fetch_struct nevertheless aborts in the todo branch for
vector-instantiated type parameters. -/
theorem C10_typaram_vector_fetch_panics :
    (let tag : StructTag := .mk [1] ("M").toList ("S").toList [.vector .u8]
    let ns : NStruct := .mk [.mk (("f").toList) (.typeParameter 0)]
    let s : AnnotatedMoveStruct := .mk true tag [(("f").toList, .bytes [7])]
    let run := store (List.replicate 16 10) tag s Db.empty
    struct_columns tag ns = .ok [("f").toList] ∧
    run.2.2 = .ok () ∧
    run.1.get? 1 = some (.insert (struct_tag_to_sql tag) [("f").toList] [.blob [7]] 1) ∧
    fetch_struct (fun _ => some ns) 9 tag 1 run.2.1 =
      .error (.panic ("vectors todo").toList)) := by
  exact ⟨rfl, rfl, by decide, rfl⟩

/-! ## Claim C3: how the resolver treats Signer -/

/-- C3 as stated fails on this source: resolve_type maps the Signer tag to
a resolved type instead of failing with InvalidStorageType, and
resolve_signature maps the Signer token to a resolved type as well. -/
theorem C3_counterexample_signer_resolves :
    resolve_type (fun _ => .error (.failure [])) .signer = .ok .signer ∧
    resolve_signature (fun _ => .error (.failure [])) .signer = .ok .signer :=
  ⟨rfl, rfl⟩

/-- C3 amended: resolve_type is total on Signer and on every primitive
tag, mapping each to its resolved counterpart; vectors and structs
recurse, the latter through resolve_struct; in resolve_signature only the
reference tokens fail, with the unexpected reference error, while the
Signer token resolves. -/
theorem C3_resolver_signer_is_total
    (rs : StructTag → Except Err FatStructType)
    (rh : Nat → Except Err FatStructType) :
    resolve_type rs .signer = .ok .signer ∧
    resolve_type rs .bool = .ok .bool ∧
    resolve_type rs .u8 = .ok .u8 ∧
    resolve_type rs .u64 = .ok .u64 ∧
    resolve_type rs .u128 = .ok .u128 ∧
    resolve_type rs .address = .ok .address ∧
    (∀ t, resolve_type rs (.vector t) =
      match resolve_type rs t with
      | .error e => .error e
      | .ok f => .ok (.vector f)) ∧
    (∀ s, resolve_type rs (.struct_ s) =
      match rs s with
      | .error e => .error e
      | .ok f => .ok (.struct_ f)) ∧
    resolve_signature rh .signer = .ok .signer ∧
    (∀ t, resolve_signature rh (.reference t) =
      .error (.failure ("unexpected reference").toList)) ∧
    (∀ t, resolve_signature rh (.mutableReference t) =
      .error (.failure ("unexpected reference").toList)) :=
  ⟨rfl, rfl, rfl, rfl, rfl, rfl, fun _ => rfl, fun _ => rfl, rfl,
    fun _ => rfl, fun _ => rfl⟩

/-! ## Claim C8: annotator shape mismatches -/

/-- Field list of a plain Move struct. -/
def MoveStruct.fields : MoveStruct → List MoveValue
  | .mk fs => fs

/-- Whether the top constructors of a value and a resolved type pair up
with one of the annotate_value arms. -/
def headMatches : MoveValue → FatType → Bool
  | .bool_ _, .bool => true
  | .u8 _, .u8 => true
  | .u64 _, .u64 => true
  | .u128 _, .u128 => true
  | .address _, .address => true
  | .vector _, .vector _ => true
  | .struct_ _, .struct_ _ => true
  | _, _ => false

/-- C8 as stated fails on this source: a struct value whose field count
differs from the resolved field list is truncated silently by the zip in
annotate_struct, producing an annotated struct instead of an
InternalTypeMismatch error. -/
theorem C8_counterexample_field_count_truncates :
    annotate_struct (.mk [.bool_ true])
      (.mk [1] ("M").toList ("S").toList false [] []) =
      .ok (.mk false (.mk [1] ("M").toList ("S").toList []) []) := rfl

/-- C8 amended: a top-level constructor mismatch between value and
resolved type always yields the catch-all annotation error, but a field
count mismatch does not: the zip stops at the shorter list, so a
successful annotate_struct returns as many fields as the shorter of the
two lists. -/
theorem C8_mismatch_errors_but_zip_truncates :
    (∀ v ty, headMatches v ty = false →
      annotate_value v ty =
        .error (.failure ("Cannot annotate value with type").toList)) ∧
    (∀ tys vs out, annotateFields tys vs = .ok out →
      out.length = min tys.length vs.length) ∧
    (∀ ms fty r, annotate_struct ms fty = .ok r →
      r.value.length = min fty.fields.length ms.fields.length) := by
  have hfields : ∀ tys vs out, annotateFields tys vs = .ok out →
      out.length = min tys.length vs.length := by
    intro tys
    induction tys with
    | nil =>
      intro vs out h
      cases vs with
      | nil => cases h; rfl
      | cons v vs => cases h; simp
    | cons hd tl ih =>
      intro vs out h
      obtain ⟨id, ty⟩ := hd
      cases vs with
      | nil => cases h; simp
      | cons v vs =>
        simp only [annotateFields] at h
        cases h1 : annotate_value v ty with
        | error e => rw [h1] at h; cases h
        | ok a =>
          rw [h1] at h
          cases h2 : annotateFields tl vs with
          | error e => rw [h2] at h; cases h
          | ok rest =>
            rw [h2] at h
            cases h
            simp only [List.length_cons]
            rw [ih vs rest h2]
            omega
  refine ⟨?_, hfields, ?_⟩
  · intro v ty h
    cases v <;> cases ty <;> try rfl
    all_goals simp [headMatches] at h
  · intro ms fty r h
    obtain ⟨fields⟩ := ms
    simp only [annotate_struct] at h
    cases h1 : FatStructType.struct_tag fty with
    | error e => rw [h1] at h; cases h
    | ok tag =>
      rw [h1] at h
      cases h2 : annotateFields fty.fields fields with
      | error e => rw [h2] at h; cases h
      | ok af =>
        rw [h2] at h
        cases h
        simpa [AnnotatedMoveStruct.value, MoveStruct.fields] using hfields _ _ _ h2

/-- Witness for C8 amended: the Bool value against the U64 type errors,
and a two field type against a one field value annotates to one field. -/
theorem C8_mismatch_errors_but_zip_truncates_witness :
    annotate_value (.bool_ true) .u64 =
      .error (.failure ("Cannot annotate value with type").toList) ∧
    annotateFields [(("a").toList, .bool), (("b").toList, .bool)] [.bool_ false] =
      .ok [(("a").toList, .bool_ false)] ∧
    (1 : Nat) = min 2 1 :=
  ⟨C8_mismatch_errors_but_zip_truncates.1 (.bool_ true) .u64 rfl, rfl,
    C8_mismatch_errors_but_zip_truncates.2.1
      [(("a").toList, .bool), (("b").toList, .bool)] [.bool_ false]
      [(("a").toList, .bool_ false)] rfl⟩

/-! ## Claim C4: fetch_struct on a missing row -/

/-- C4 as stated fails on this source: fetch_struct cannot return an
absent value, and on a missing row the unwrap on fetch_one aborts; at this
concrete input the embedded reader returns the panic outcome rather than
any absent result. -/
theorem C4_counterexample_missing_row_panics :
    fetch_struct (fun _ => some (.mk [.mk (("a").toList) .u64])) 9
      (.mk [1] ("M").toList ("S").toList []) 1 Db.empty =
      .error (.panic ("no rows returned").toList) := rfl

/-- C4 amended: whenever the tag resolves, the select list is well formed
and non-empty, and the table holds no row with the requested id,
fetch_struct fails with the panic of the unwrap on fetch_one instead of
returning an absent value. -/
theorem C4_missing_row_is_panic
    (resolve : StructTag → Option NStruct) (fuel : Nat) (tag : StructTag)
    (ns : NStruct) (cols : List Ident) (id : Nat) (db : Db)
    (hres : resolve tag = some ns)
    (hcols : struct_columns tag ns = .ok cols)
    (hne : cols ≠ [])
    (hrow : db.rowAt (struct_tag_to_sql tag) id = none) :
    fetch_struct resolve (fuel + 1) tag id db =
      .error (.panic ("no rows returned").toList) := by
  have hempty : cols.isEmpty = false := by
    cases cols with
    | nil => exact absurd rfl hne
    | cons c cs => rfl
  simp [fetch_struct, hres, hcols, hempty, hrow]

/-- Witness for C4 amended at a concrete tag, resolver and empty
database. -/
theorem C4_missing_row_is_panic_witness :
    fetch_struct (fun _ => some (.mk [.mk (("a").toList) .u64])) 9
      (.mk [2] ("M").toList ("T").toList []) 1 Db.empty =
      .error (.panic ("no rows returned").toList) :=
  C4_missing_row_is_panic (fun _ => some (.mk [.mk (("a").toList) .u64])) 8
    (.mk [2] ("M").toList ("T").toList []) (.mk [.mk (("a").toList) .u64])
    [("a").toList] 1 Db.empty rfl rfl (by simp) rfl

/-! ## Effects of the writer on the database

The writer only appends: every table keeps its rows as a prefix, tables
never disappear, only tables whose name starts with the character x (the
struct tables and their element tables) change, and no emitted statement
is an UPDATE. -/

/-- Append-only extension of database states. -/
def Ext (db1 db2 : Db) : Prop :=
  ∀ n, ((db1 n).isSome → (db2 n).isSome) ∧ ∃ ext, db2.rows n = db1.rows n ++ ext

theorem Ext.rfl (db : Db) : Ext db db :=
  fun n => ⟨id, [], by simp⟩

theorem Ext.trans {a b c : Db} (h1 : Ext a b) (h2 : Ext b c) : Ext a c := by
  intro n
  obtain ⟨s1, e1, he1⟩ := h1 n
  obtain ⟨s2, e2, he2⟩ := h2 n
  exact ⟨fun h => s2 (s1 h), e1 ++ e2, by rw [he2, he1, List.append_assoc]⟩

theorem rows_create (db : Db) (n m : List Char) :
    (db.create n).rows m = db.rows m := by
  unfold Db.create Db.rows
  by_cases h : m = n
  · subst h; simp
  · simp [h]

theorem create_ne (db : Db) (n m : List Char) (h : m ≠ n) : db.create n m = db m := by
  unfold Db.create
  simp [h]

theorem Ext.create (db : Db) (n : List Char) : Ext db (db.create n) := by
  intro m
  constructor
  · intro hs
    unfold Db.create
    by_cases h : m = n <;> simp [h, hs]
  · exact ⟨[], by rw [rows_create]; simp⟩

theorem rows_insert_self (db : Db) (n : List Char) (row : Row) :
    ((db.insertRow n row).1).rows n = db.rows n ++ [row] := by
  unfold Db.insertRow Db.rows
  simp

theorem rows_insert_ne (db : Db) (n : List Char) (row : Row) (m : List Char)
    (h : m ≠ n) : ((db.insertRow n row).1).rows m = db.rows m := by
  unfold Db.insertRow Db.rows
  simp [h]

theorem insert_ne (db : Db) (n : List Char) (row : Row) (m : List Char)
    (h : m ≠ n) : (db.insertRow n row).1 m = db m := by
  unfold Db.insertRow
  simp [h]

theorem insert_snd (db : Db) (n : List Char) (row : Row) :
    (db.insertRow n row).2 = (db.rows n).length + 1 := rfl

theorem Ext.insert (db : Db) (n : List Char) (row : Row) :
    Ext db (db.insertRow n row).1 := by
  intro m
  constructor
  · intro hs
    unfold Db.insertRow
    by_cases h : m = n <;> simp [h, hs]
  · by_cases h : m = n
    · subst h; exact ⟨[row], rows_insert_self db m row⟩
    · exact ⟨[], by rw [rows_insert_ne db n row m h]; simp⟩

theorem Ext.tlen_le {db1 db2 : Db} (h : Ext db1 db2) (n : List Char) :
    db1.tlen n ≤ db2.tlen n := by
  obtain ⟨-, ext, hext⟩ := h n
  unfold Db.tlen
  rw [hext]
  simp

theorem Ext.rowAt_mono {db1 db2 : Db} (h : Ext db1 db2) (n : List Char)
    (id : Nat) (row : Row) (hr : db1.rowAt n id = some row) :
    db2.rowAt n id = some row := by
  obtain ⟨-, ext, hext⟩ := h n
  unfold Db.rowAt at hr ⊢
  by_cases h0 : id = 0
  · simp [h0] at hr
  · simp only [h0, if_false] at hr ⊢
    rw [hext, List.get?_append (List.get?_eq_some.mp hr).1]
    exact hr

/-- Every struct table name starts with the character x. -/
theorem struct_tag_to_sql_head (tag : StructTag) :
    (struct_tag_to_sql tag).head? = some 'x' := by
  cases tag
  rfl

/-- Every element table name starts with the character x. -/
theorem vector_table_name_head (tag : StructTag) (f : Ident) :
    (vector_table_name tag f).head? = some 'x' := by
  cases tag
  rfl

/-- One writer step: the database extends, tables whose name does not
start with x are untouched, and none of the logged statements is an
UPDATE. -/
def WStep (db : Db) (stmts : List Stmt) (db2 : Db) : Prop :=
  Ext db db2 ∧ (∀ n, n.head? ≠ some 'x' → db2 n = db n) ∧
    ∀ st ∈ stmts, st.isUpdate = false

theorem WStep.nil (db : Db) : WStep db [] db :=
  ⟨Ext.rfl db, fun _ _ => rfl, fun st h => by cases h⟩

theorem WStep.comp {db db1 db2 : Db} {s1 s2 : List Stmt}
    (h1 : WStep db s1 db1) (h2 : WStep db1 s2 db2) : WStep db (s1 ++ s2) db2 := by
  refine ⟨h1.1.trans h2.1, ?_, ?_⟩
  · intro n hn
    rw [h2.2.1 n hn, h1.2.1 n hn]
  · intro st hst
    rcases List.mem_append.mp hst with h | h
    · exact h1.2.2 st h
    · exact h2.2.2 st h

theorem WStep.stmt {db db2 : Db} {s : List Stmt} {st : Stmt}
    (h : st.isUpdate = false) (hs : WStep db s db2) : WStep db (st :: s) db2 := by
  refine ⟨hs.1, hs.2.1, ?_⟩
  intro x hx
  rcases List.mem_cons.mp hx with rfl | hx
  · exact h
  · exact hs.2.2 x hx

theorem WStep.createX {db : Db} {n : List Char} (hx : n.head? = some 'x') :
    WStep db [] (db.create n) := by
  refine ⟨Ext.create db n, ?_, fun st h => by cases h⟩
  intro m hm
  exact create_ne db n m (fun h => hm (h ▸ hx))

theorem WStep.insertX {db : Db} {n : List Char} (row : Row)
    (hx : n.head? = some 'x') : WStep db [] (db.insertRow n row).1 := by
  refine ⟨Ext.insert db n row, ?_, fun st h => by cases h⟩
  intro m hm
  exact insert_ne db n row m (fun h => hm (h ▸ hx))

/-- The statement log is independent of the state clauses: a step may be
restated over any statement list that is UPDATE-free. -/
theorem WStep.withStmts {db db2 : Db} {s s2 : List Stmt} (h : WStep db s db2)
    (h2 : ∀ st ∈ s2, Stmt.isUpdate st = false) : WStep db s2 db2 :=
  ⟨h.1, h.2.1, h2⟩

theorem noUpd_nil : ∀ st ∈ ([] : List Stmt), st.isUpdate = false :=
  fun st h => by cases h

theorem noUpd_append {s1 s2 : List Stmt}
    (h1 : ∀ st ∈ s1, Stmt.isUpdate st = false)
    (h2 : ∀ st ∈ s2, Stmt.isUpdate st = false) :
    ∀ st ∈ s1 ++ s2, st.isUpdate = false := by
  intro st hst
  rcases List.mem_append.mp hst with h | h
  · exact h1 st h
  · exact h2 st h

theorem noUpd_cons {st : Stmt} {s : List Stmt} (h : st.isUpdate = false)
    (hs : ∀ x ∈ s, Stmt.isUpdate x = false) :
    ∀ x ∈ st :: s, Stmt.isUpdate x = false := by
  intro x hx
  rcases List.mem_cons.mp hx with rfl | hx
  · exact h
  · exact hs x hx

mutual
/-- struct_to_sql appends only, touches only tables named with a leading
x, and emits no UPDATE. -/
theorem struct_to_sql_effects (s : AnnotatedMoveStruct) :
    ∀ db : Db, WStep db (struct_to_sql s db).1 (struct_to_sql s db).2.1 := by
  cases s with
  | mk r type_ value =>
    intro db
    have hf := fieldsLoop_effects value db
    have htx := struct_tag_to_sql_head type_
    rcases h1 : fieldsLoop value db with ⟨stmts1, db1, res1⟩
    rw [h1] at hf
    simp only [struct_to_sql, h1]
    cases res1 with
    | error e => exact hf
    | ok tri =>
      obtain ⟨ns, ds, vs⟩ := tri
      rcases value with _ | ⟨hd, rest⟩
      · exact ((hf.comp ((WStep.createX htx).comp
          (WStep.insertX [] htx))).withStmts
          (noUpd_append hf.2.2 (noUpd_cons rfl (noUpd_cons rfl noUpd_nil))))
      · simp only [List.isEmpty_cons, if_false, Bool.false_eq_true]
        have hvl := vectorsLoop_effects type_
          (((db1.create (struct_tag_to_sql type_)).insertRow
            (struct_tag_to_sql type_) (ns.zip vs)).2) (hd :: rest)
          (((db1.create (struct_tag_to_sql type_)).insertRow
            (struct_tag_to_sql type_) (ns.zip vs)).1)
        rcases h2 : vectorsLoop type_
          (((db1.create (struct_tag_to_sql type_)).insertRow
            (struct_tag_to_sql type_) (ns.zip vs)).2) (hd :: rest)
          (((db1.create (struct_tag_to_sql type_)).insertRow
            (struct_tag_to_sql type_) (ns.zip vs)).1) with ⟨stmts2, db4, res2⟩
        rw [h2] at hvl
        have hins : WStep db1 []
            (((db1.create (struct_tag_to_sql type_)).insertRow
              (struct_tag_to_sql type_) (ns.zip vs)).1) :=
          (WStep.createX htx).comp (WStep.insertX _ htx)
        have hstep := (hf.comp hins).comp hvl
        have hnoupd : ∀ st ∈ stmts1 ++
            [Stmt.createTable (struct_tag_to_sql type_)
              (("__id INTEGER PRIMARY KEY").toList :: ds),
              if ns.isEmpty then
                Stmt.insertDefault (struct_tag_to_sql type_)
                  (((db1.create (struct_tag_to_sql type_)).insertRow
                    (struct_tag_to_sql type_) (ns.zip vs)).2)
              else Stmt.insert (struct_tag_to_sql type_) ns vs
                (((db1.create (struct_tag_to_sql type_)).insertRow
                  (struct_tag_to_sql type_) (ns.zip vs)).2)] ++ stmts2,
            st.isUpdate = false := by
          refine noUpd_append (noUpd_append hf.2.2 (noUpd_cons rfl (noUpd_cons ?_ noUpd_nil))) hvl.2.2
          split <;> rfl
        cases res2 with
        | error e => exact hstep.withStmts hnoupd
        | ok u => exact hstep.withStmts hnoupd

/-- fieldsLoop appends only, touches only x tables, and emits no
UPDATE. -/
theorem fieldsLoop_effects (value : List (Ident × AnnotatedMoveValue)) :
    ∀ db : Db, WStep db (fieldsLoop value db).1 (fieldsLoop value db).2.1 := by
  cases value with
  | nil => exact fun db => WStep.nil db
  | cons hd rest =>
    obtain ⟨ident, val⟩ := hd
    intro db
    have hc := fieldContrib_effects ident val db
    rcases h1 : fieldContrib ident val db with ⟨stmts1, db1, res1⟩
    rw [h1] at hc
    dsimp only at hc
    simp only [fieldsLoop, h1]
    cases res1 with
    | error e => exact hc
    | ok tri1 =>
      obtain ⟨ns1, ds1, vs1⟩ := tri1
      dsimp only
      have hr := fieldsLoop_effects rest db1
      rcases h2 : fieldsLoop rest db1 with ⟨stmts2, db2, res2⟩
      rw [h2] at hr
      cases res2 with
      | error e =>
        dsimp only at hr ⊢
        exact hc.comp hr
      | ok tri2 =>
        obtain ⟨ns2, ds2, vs2⟩ := tri2
        dsimp only at hr ⊢
        exact hc.comp hr

/-- fieldContrib appends only, touches only x tables, and emits no
UPDATE. -/
theorem fieldContrib_effects (ident : Ident) (val : AnnotatedMoveValue) :
    ∀ db : Db, WStep db (fieldContrib ident val db).1 (fieldContrib ident val db).2.1 := by
  cases val with
  | u8 i => exact fun db => WStep.nil db
  | u64 i => exact fun db => WStep.nil db
  | u128 i => exact fun db => WStep.nil db
  | bool_ b => exact fun db => WStep.nil db
  | address a => exact fun db => WStep.nil db
  | bytes bs => exact fun db => WStep.nil db
  | struct_ s =>
    intro db
    have hs := struct_to_sql_effects s db
    rcases h1 : struct_to_sql s db with ⟨stmts, db1, res⟩
    rw [h1] at hs
    simp only [fieldContrib, h1]
    cases res with
    | error e => exact hs
    | ok id => exact hs
  | vector ty v =>
    intro db
    cases ty with
    | bool =>
      cases h : vector_to_bytes v with
      | error e => simp only [fieldContrib, h]; exact WStep.nil db
      | ok bs => simp only [fieldContrib, h]; exact WStep.nil db
    | u8 =>
      cases h : vector_to_bytes v with
      | error e => simp only [fieldContrib, h]; exact WStep.nil db
      | ok bs => simp only [fieldContrib, h]; exact WStep.nil db
    | u64 =>
      cases h : vector_to_bytes v with
      | error e => simp only [fieldContrib, h]; exact WStep.nil db
      | ok bs => simp only [fieldContrib, h]; exact WStep.nil db
    | u128 =>
      cases h : vector_to_bytes v with
      | error e => simp only [fieldContrib, h]; exact WStep.nil db
      | ok bs => simp only [fieldContrib, h]; exact WStep.nil db
    | signer => exact WStep.nil db
    | address => exact WStep.nil db
    | vector t => exact WStep.nil db
    | struct_ s => exact WStep.nil db

/-- vectorsLoop appends only, touches only x tables, and emits no
UPDATE. -/
theorem vectorsLoop_effects (type_ : StructTag) (id : Nat)
    (value : List (Ident × AnnotatedMoveValue)) :
    ∀ db : Db, WStep db (vectorsLoop type_ id value db).1
      (vectorsLoop type_ id value db).2.1 := by
  cases value with
  | nil => exact fun db => WStep.nil db
  | cons hd rest =>
    obtain ⟨ident, val⟩ := hd
    intro db
    have hnx := vector_table_name_head type_ ident
    cases val with
    | vector ty v =>
      have inner : ∀ db0 : Db,
          WStep (db0.create (vector_table_name type_ ident))
            (elementsLoop (vector_table_name type_ ident) id v
              (db0.create (vector_table_name type_ ident))).1
            (elementsLoop (vector_table_name type_ ident) id v
              (db0.create (vector_table_name type_ ident))).2.1 →
          ∀ fd, WStep db0
            (Stmt.createTable (vector_table_name type_ ident)
              [("id INTEGER PRIMARY KEY").toList,
                ("parent_id INTEGER NOT NULL").toList, fd] ::
              (elementsLoop (vector_table_name type_ ident) id v
                (db0.create (vector_table_name type_ ident))).1)
            (elementsLoop (vector_table_name type_ ident) id v
              (db0.create (vector_table_name type_ ident))).2.1 := by
        intro db0 hel fd
        exact ((WStep.createX hnx).comp hel).withStmts (noUpd_cons rfl hel.2.2)
      cases ty with
      | address =>
        have hel := elementsLoop_effects (vector_table_name type_ ident) id v hnx
          (db.create (vector_table_name type_ ident))
        have hwrap := inner db hel (("slot BLOB NOT NULL").toList)
        rcases h3 : elementsLoop (vector_table_name type_ ident) id v
          (db.create (vector_table_name type_ ident)) with ⟨s3, db3, res3⟩
        rw [h3] at hwrap
        dsimp only at hwrap
        simp only [vectorsLoop, vectorFieldDecl, h3]
        cases res3 with
        | error e => dsimp only; exact hwrap
        | ok u =>
          dsimp only
          have hr := vectorsLoop_effects type_ id rest db3
          rcases h4 : vectorsLoop type_ id rest db3 with ⟨s4, db4, res4⟩
          rw [h4] at hr
          cases res4 with
          | error e =>
            dsimp only at hr ⊢
            exact hwrap.comp hr
          | ok u2 =>
            dsimp only at hr ⊢
            exact hwrap.comp hr
      | vector t =>
        obtain ⟨fd, hfd⟩ : ∃ fd, vectorFieldDecl (.vector t) = .ok fd := by
          cases t <;> exact ⟨_, rfl⟩
        have hel := elementsLoop_effects (vector_table_name type_ ident) id v hnx
          (db.create (vector_table_name type_ ident))
        have hwrap := inner db hel fd
        rcases h3 : elementsLoop (vector_table_name type_ ident) id v
          (db.create (vector_table_name type_ ident)) with ⟨s3, db3, res3⟩
        rw [h3] at hwrap
        dsimp only at hwrap
        simp only [vectorsLoop, hfd, h3]
        cases res3 with
        | error e => dsimp only; exact hwrap
        | ok u =>
          dsimp only
          have hr := vectorsLoop_effects type_ id rest db3
          rcases h4 : vectorsLoop type_ id rest db3 with ⟨s4, db4, res4⟩
          rw [h4] at hr
          cases res4 with
          | error e =>
            dsimp only at hr ⊢
            exact hwrap.comp hr
          | ok u2 =>
            dsimp only at hr ⊢
            exact hwrap.comp hr
      | struct_ stag =>
        have hel := elementsLoop_effects (vector_table_name type_ ident) id v hnx
          (db.create (vector_table_name type_ ident))
        have hwrap := inner db hel (("slot INTEGER NOT NULL").toList)
        rcases h3 : elementsLoop (vector_table_name type_ ident) id v
          (db.create (vector_table_name type_ ident)) with ⟨s3, db3, res3⟩
        rw [h3] at hwrap
        dsimp only at hwrap
        simp only [vectorsLoop, vectorFieldDecl, h3]
        cases res3 with
        | error e => dsimp only; exact hwrap
        | ok u =>
          dsimp only
          have hr := vectorsLoop_effects type_ id rest db3
          rcases h4 : vectorsLoop type_ id rest db3 with ⟨s4, db4, res4⟩
          rw [h4] at hr
          cases res4 with
          | error e =>
            dsimp only at hr ⊢
            exact hwrap.comp hr
          | ok u2 =>
            dsimp only at hr ⊢
            exact hwrap.comp hr
      | bool => exact vectorsLoop_effects type_ id rest db
      | u8 => exact vectorsLoop_effects type_ id rest db
      | u64 => exact vectorsLoop_effects type_ id rest db
      | u128 => exact vectorsLoop_effects type_ id rest db
      | signer => exact vectorsLoop_effects type_ id rest db
    | u8 i => exact vectorsLoop_effects type_ id rest db
    | u64 i => exact vectorsLoop_effects type_ id rest db
    | u128 i => exact vectorsLoop_effects type_ id rest db
    | bool_ b => exact vectorsLoop_effects type_ id rest db
    | address a => exact vectorsLoop_effects type_ id rest db
    | bytes bs => exact vectorsLoop_effects type_ id rest db
    | struct_ s => exact vectorsLoop_effects type_ id rest db

/-- elementsLoop on a table named with a leading x appends only, touches
only x tables, and emits no UPDATE. -/
theorem elementsLoop_effects (name : List Char) (pid : Nat)
    (v : List AnnotatedMoveValue) (hx : name.head? = some 'x') :
    ∀ db : Db, WStep db (elementsLoop name pid v db).1
      (elementsLoop name pid v db).2.1 := by
  cases v with
  | nil => exact fun db => WStep.nil db
  | cons e rest =>
    intro db
    cases e with
    | address a =>
      have hr := elementsLoop_effects name pid rest hx
        (db.insertRow name [(("parent_id").toList, .int (pid : Int)),
          (("slot").toList, .blob a)]).1
      rcases h1 : elementsLoop name pid rest
        (db.insertRow name [(("parent_id").toList, .int (pid : Int)),
          (("slot").toList, .blob a)]).1 with ⟨s1, db1, res1⟩
      rw [h1] at hr
      simp only [elementsLoop, h1]
      exact ((WStep.insertX _ hx).comp hr).withStmts (noUpd_cons rfl hr.2.2)
    | bytes b =>
      have hr := elementsLoop_effects name pid rest hx
        (db.insertRow name [(("parent_id").toList, .int (pid : Int)),
          (("slot").toList, .blob b)]).1
      rcases h1 : elementsLoop name pid rest
        (db.insertRow name [(("parent_id").toList, .int (pid : Int)),
          (("slot").toList, .blob b)]).1 with ⟨s1, db1, res1⟩
      rw [h1] at hr
      simp only [elementsLoop, h1]
      exact ((WStep.insertX _ hx).comp hr).withStmts (noUpd_cons rfl hr.2.2)
    | struct_ s =>
      have hs := struct_to_sql_effects s db
      rcases h1 : struct_to_sql s db with ⟨s1, db1, res1⟩
      rw [h1] at hs
      simp only [elementsLoop, h1]
      cases res1 with
      | error e2 => exact hs
      | ok cid =>
        dsimp only at hs ⊢
        have hr := elementsLoop_effects name pid rest hx
          (db1.insertRow name [(("parent_id").toList, .int (pid : Int)),
            (("slot").toList, .int (cid : Int))]).1
        rcases h2 : elementsLoop name pid rest
          (db1.insertRow name [(("parent_id").toList, .int (pid : Int)),
            (("slot").toList, .int (cid : Int))]).1 with ⟨s2, db2, res2⟩
        rw [h2] at hr
        dsimp only at hr ⊢
        exact (hs.comp ((WStep.insertX _ hx).comp hr)).withStmts
          (noUpd_append hs.2.2 (noUpd_cons rfl hr.2.2))
    | u8 i => exact WStep.nil db
    | u64 i => exact WStep.nil db
    | u128 i => exact WStep.nil db
    | bool_ b => exact WStep.nil db
    | vector t es => exact WStep.nil db
end

theorem rowAt_none_of_gt (db : Db) (n : List Char) (id : Nat)
    (h : db.tlen n < id) : db.rowAt n id = none := by
  unfold Db.rowAt
  unfold Db.tlen at h
  have h0 : id ≠ 0 := by omega
  simp only [h0, if_false]
  exact List.get?_eq_none.mpr (by omega)

theorem rowAt_insert_self (db : Db) (n : List Char) (row : Row) :
    ((db.insertRow n row).1).rowAt n ((db.insertRow n row).2) = some row := by
  show ((db.insertRow n row).1).rowAt n ((db.rows n).length + 1) = some row
  unfold Db.rowAt
  simp only [Nat.add_one_ne_zero, if_false, Nat.add_sub_cancel]
  rw [rows_insert_self]
  exact List.get?_concat_length _ _

theorem tlen_insert_self (db : Db) (n : List Char) (row : Row) :
    ((db.insertRow n row).1).tlen n = db.tlen n + 1 := by
  unfold Db.tlen
  rw [rows_insert_self]
  simp

theorem tlen_create (db : Db) (n m : List Char) :
    (db.create n).tlen m = db.tlen m := by
  unfold Db.tlen
  rw [rows_create]

/-- The root table name starts with an underscore, never with x. -/
theorem root_table_name_head (tag : StructTag) :
    (root_table_name tag).head? = some '_' := rfl

/-- A successful struct_to_sql call allocates a fresh rowid in the struct
table: no row with that id existed before, one exists afterwards, and the
table grew. -/
theorem struct_to_sql_fresh {s : AnnotatedMoveStruct} {db : Db}
    {stmts : List Stmt} {db1 : Db} {id : Nat}
    (h : struct_to_sql s db = (stmts, db1, .ok id)) :
    db.rowAt (struct_tag_to_sql s.type_) id = none ∧
    (∃ row, db1.rowAt (struct_tag_to_sql s.type_) id = some row) ∧
    db.tlen (struct_tag_to_sql s.type_) < db1.tlen (struct_tag_to_sql s.type_) := by
  cases s with
  | mk r type_ value =>
    simp only [AnnotatedMoveStruct.type_]
    rcases h1 : fieldsLoop value db with ⟨s1, dbA, res1⟩
    have hA := (fieldsLoop_effects value db).1
    rw [h1] at hA
    simp only [struct_to_sql, h1] at h
    cases res1 with
    | error e => simp at h
    | ok tri =>
      obtain ⟨ns, ds, vs⟩ := tri
      have hAle : db.tlen (struct_tag_to_sql type_) ≤
          dbA.tlen (struct_tag_to_sql type_) := hA.tlen_le _
      rcases value with _ | ⟨hd, rest⟩
      · dsimp only at h
        obtain ⟨hdb, hres⟩ : ((dbA.create (struct_tag_to_sql type_)).insertRow
              (struct_tag_to_sql type_) []).1 = db1 ∧
            Except.ok ((dbA.create (struct_tag_to_sql type_)).tlen
              (struct_tag_to_sql type_) + 1) = Except.ok id :=
          ⟨congrArg (fun p => p.2.1) h, congrArg (fun p => p.2.2) h⟩
        have hid : (dbA.create (struct_tag_to_sql type_)).tlen
            (struct_tag_to_sql type_) + 1 = id := by
          injection hres
        subst hdb
        rw [tlen_create] at hid
        refine ⟨rowAt_none_of_gt _ _ _ (by omega), ⟨[], ?_⟩, ?_⟩
        · have := rowAt_insert_self (dbA.create (struct_tag_to_sql type_))
            (struct_tag_to_sql type_) []
          rw [show ((dbA.create (struct_tag_to_sql type_)).insertRow
            (struct_tag_to_sql type_) []).2 =
              (dbA.create (struct_tag_to_sql type_)).tlen
                (struct_tag_to_sql type_) + 1 from rfl, tlen_create, hid] at this
          exact this
        · have hti := tlen_insert_self (dbA.create (struct_tag_to_sql type_))
            (struct_tag_to_sql type_) []
          have htc := tlen_create dbA (struct_tag_to_sql type_) (struct_tag_to_sql type_)
          omega
      · dsimp only at h
        rcases h2 : vectorsLoop type_
          (((dbA.create (struct_tag_to_sql type_)).insertRow
            (struct_tag_to_sql type_) (ns.zip vs)).2) (hd :: rest)
          (((dbA.create (struct_tag_to_sql type_)).insertRow
            (struct_tag_to_sql type_) (ns.zip vs)).1) with ⟨s2, dbC, res2⟩
        have hC := (vectorsLoop_effects type_
          (((dbA.create (struct_tag_to_sql type_)).insertRow
            (struct_tag_to_sql type_) (ns.zip vs)).2) (hd :: rest)
          (((dbA.create (struct_tag_to_sql type_)).insertRow
            (struct_tag_to_sql type_) (ns.zip vs)).1)).1
        rw [h2] at hC h
        cases res2 with
        | error e => simp at h
        | ok u =>
          dsimp only at h
          obtain ⟨hdb, hres⟩ : dbC = db1 ∧
              Except.ok (((dbA.create (struct_tag_to_sql type_)).insertRow
                (struct_tag_to_sql type_) (ns.zip vs)).2) = Except.ok id :=
            ⟨congrArg (fun p => p.2.1) h, congrArg (fun p => p.2.2) h⟩
          have hid : ((dbA.create (struct_tag_to_sql type_)).insertRow
              (struct_tag_to_sql type_) (ns.zip vs)).2 = id := by
            injection hres
          have hid2 : dbA.tlen (struct_tag_to_sql type_) + 1 = id := by
            have h3 : ((dbA.create (struct_tag_to_sql type_)).insertRow
                (struct_tag_to_sql type_) (ns.zip vs)).2 =
                (dbA.create (struct_tag_to_sql type_)).tlen
                  (struct_tag_to_sql type_) + 1 := rfl
            have htc := tlen_create dbA (struct_tag_to_sql type_)
              (struct_tag_to_sql type_)
            omega
          subst hdb
          dsimp only at hC
          refine ⟨rowAt_none_of_gt _ _ _ (by omega), ⟨ns.zip vs, ?_⟩, ?_⟩
          · apply hC.rowAt_mono
            have := rowAt_insert_self (dbA.create (struct_tag_to_sql type_))
              (struct_tag_to_sql type_) (ns.zip vs)
            rw [show ((dbA.create (struct_tag_to_sql type_)).insertRow
              (struct_tag_to_sql type_) (ns.zip vs)).2 =
                (dbA.create (struct_tag_to_sql type_)).tlen
                  (struct_tag_to_sql type_) + 1 from rfl, tlen_create, hid2] at this
            exact this
          · have hle := hC.tlen_le (struct_tag_to_sql type_)
            rw [tlen_insert_self, tlen_create] at hle
            omega

theorem rowAt_create (db : Db) (n m : List Char) (id : Nat) :
    (db.create n).rowAt m id = db.rowAt m id := by
  unfold Db.rowAt
  rw [rows_create]

/-! ## Claim C2: a second store of the same value -/

/-- C2 as stated fails on this source: there is no diff path. Storing the
same value twice re-runs the full insert path: the second store adds a
fresh struct row and fresh element rows (the row counts grow from one to
two) and then aborts on the UNIQUE address constraint of the root
table. -/
theorem C2_counterexample_second_store_inserts :
    (let addr : List Byte := List.replicate 16 9
    let tag : StructTag := .mk [1] ("M").toList ("S").toList []
    let s : AnnotatedMoveStruct := .mk true tag
      [(("c").toList, .vector .address [.address (List.replicate 16 3)])]
    let run1 := store addr tag s Db.empty
    let run2 := store addr tag s run1.2.1
    run1.2.2 = .ok () ∧
    run2.2.2 = .error (.uniqueViolation (root_table_name tag)) ∧
    (run1.2.1).tlen (vector_table_name tag (("c").toList)) = 1 ∧
    (run2.2.1).tlen (vector_table_name tag (("c").toList)) = 2 ∧
    (run1.2.1).tlen (struct_tag_to_sql tag) = 1 ∧
    (run2.2.1).tlen (struct_tag_to_sql tag) = 2) :=
  ⟨rfl, rfl, rfl, rfl, rfl, rfl⟩

/-- C2 amended: when __root__<tag> already holds a row for the address, a
second store emits no UPDATE statement (the writer never constructs one),
but it does not take a diff path: it re-inserts a fresh struct row under a
fresh rowid, and the following INSERT into the root table violates the
UNIQUE address constraint, so the store fails where the source panics. -/
theorem C2_second_store_reinserts_and_fails
    (address : List Byte) (tag : StructTag) (s : AnnotatedMoveStruct) (db : Db)
    (stmts : List Stmt) (db1 : Db) (id : Nat)
    (hw : struct_to_sql s db = (stmts, db1, .ok id))
    (hdup : (db.rows (root_table_name s.type_)).any
      (fun r => r.lookup ("address").toList == some (.blob address)) = true) :
    (store address tag s db).2.2 =
      .error (.uniqueViolation (root_table_name s.type_)) ∧
    (store address tag s db).1 = stmts ++
      [.createTable (root_table_name s.type_)
        [("address BLOB UNIQUE NOT NULL").toList, ("id INTEGER NOT NULL").toList],
        .insert (root_table_name s.type_) [("address").toList, ("id").toList]
          [.blob address, .int (id : Int)] 0] ∧
    (∀ st ∈ (store address tag s db).1, st.isUpdate = false) ∧
    db.rowAt (struct_tag_to_sql s.type_) id = none ∧
    (∃ row, (store address tag s db).2.1.rowAt (struct_tag_to_sql s.type_) id =
      some row) ∧
    db.tlen (struct_tag_to_sql s.type_) <
      (store address tag s db).2.1.tlen (struct_tag_to_sql s.type_) := by
  have heff := struct_to_sql_effects s db
  rw [hw] at heff
  dsimp only at heff
  have hfresh := struct_to_sql_fresh hw
  have hroot : db1 (root_table_name s.type_) = db (root_table_name s.type_) :=
    heff.2.1 _ (by rw [root_table_name_head]; simp)
  have hrows : (db1.create (root_table_name s.type_)).rows (root_table_name s.type_) =
      db.rows (root_table_name s.type_) := by
    rw [rows_create]
    unfold Db.rows
    rw [hroot]
  have hcond : ((db1.create (root_table_name s.type_)).rows
      (root_table_name s.type_)).any
      (fun r => r.lookup ("address").toList == some (.blob address)) = true := by
    rw [hrows]
    exact hdup
  simp only [store, generate_sql, hw]
  rw [if_pos hcond]
  refine ⟨rfl, rfl, ?_, hfresh.1, ?_, ?_⟩
  · exact noUpd_append heff.2.2 (noUpd_cons rfl (noUpd_cons rfl noUpd_nil))
  · obtain ⟨row, hrow⟩ := hfresh.2.1
    exact ⟨row, by rw [rowAt_create]; exact hrow⟩
  · rw [tlen_create]
    exact hfresh.2.2

/-- Witness for C2 amended at the concrete double store of a one field
resource. -/
theorem C2_second_store_reinserts_and_fails_witness :
    (let addr : List Byte := List.replicate 16 9
    let tag : StructTag := .mk [1] ("M").toList ("S").toList []
    let s : AnnotatedMoveStruct := .mk true tag [(("a").toList, .u64 7)]
    let db := (store addr tag s Db.empty).2.1
    (store addr tag s db).2.2 =
      .error (.uniqueViolation (root_table_name s.type_)) ∧
    (store addr tag s db).1 = (struct_to_sql s db).1 ++
      [.createTable (root_table_name s.type_)
        [("address BLOB UNIQUE NOT NULL").toList, ("id INTEGER NOT NULL").toList],
        .insert (root_table_name s.type_) [("address").toList, ("id").toList]
          [.blob addr, .int (2 : Int)] 0] ∧
    (∀ st ∈ (store addr tag s db).1, st.isUpdate = false) ∧
    db.rowAt (struct_tag_to_sql s.type_) 2 = none ∧
    (∃ row, (store addr tag s db).2.1.rowAt (struct_tag_to_sql s.type_) 2 =
      some row) ∧
    db.tlen (struct_tag_to_sql s.type_) <
      (store addr tag s db).2.1.tlen (struct_tag_to_sql s.type_)) :=
  C2_second_store_reinserts_and_fails _ _ _ _ _ _ 2 rfl rfl

/-! ## Claim C9: post-order insertion of child structs -/

/-- Each field contributes either no column or exactly one column named
after the field. -/
theorem fieldContrib_shape {ident : Ident} {val : AnnotatedMoveValue} {db : Db}
    {stmts : List Stmt} {db2 : Db} {ns ds : List (List Char)} {vs : List SqlValue}
    (h : fieldContrib ident val db = (stmts, db2, .ok (ns, ds, vs))) :
    (ns = [] ∧ vs = []) ∨ (ns = [ident] ∧ ∃ v, vs = [v]) := by
  cases val with
  | u8 i =>
    simp only [fieldContrib, Prod.mk.injEq, Except.ok.injEq] at h
    obtain ⟨-, -, h3, -, h5⟩ := h
    exact Or.inr ⟨h3.symm, ⟨_, h5.symm⟩⟩
  | u64 i =>
    simp only [fieldContrib, Prod.mk.injEq, Except.ok.injEq] at h
    obtain ⟨-, -, h3, -, h5⟩ := h
    exact Or.inr ⟨h3.symm, ⟨_, h5.symm⟩⟩
  | u128 i =>
    simp only [fieldContrib, Prod.mk.injEq, Except.ok.injEq] at h
    obtain ⟨-, -, h3, -, h5⟩ := h
    exact Or.inr ⟨h3.symm, ⟨_, h5.symm⟩⟩
  | bool_ b =>
    simp only [fieldContrib, Prod.mk.injEq, Except.ok.injEq] at h
    obtain ⟨-, -, h3, -, h5⟩ := h
    exact Or.inr ⟨h3.symm, ⟨_, h5.symm⟩⟩
  | address a =>
    simp only [fieldContrib, Prod.mk.injEq, Except.ok.injEq] at h
    obtain ⟨-, -, h3, -, h5⟩ := h
    exact Or.inr ⟨h3.symm, ⟨_, h5.symm⟩⟩
  | bytes bs =>
    simp only [fieldContrib, Prod.mk.injEq, Except.ok.injEq] at h
    obtain ⟨-, -, h3, -, h5⟩ := h
    exact Or.inr ⟨h3.symm, ⟨_, h5.symm⟩⟩
  | struct_ s =>
    rcases h1 : struct_to_sql s db with ⟨cs, dbc, resc⟩
    simp only [fieldContrib, h1] at h
    cases resc with
    | error e => simp at h
    | ok cid =>
      simp only [Prod.mk.injEq, Except.ok.injEq] at h
      obtain ⟨-, -, h3, -, h5⟩ := h
      exact Or.inr ⟨h3.symm, ⟨_, h5.symm⟩⟩
  | vector ty v =>
    cases ty with
    | bool =>
      cases h2 : vector_to_bytes v with
      | error e => simp only [fieldContrib, h2] at h; simp at h
      | ok bs =>
        simp only [fieldContrib, h2, Prod.mk.injEq, Except.ok.injEq] at h
        obtain ⟨-, -, h3, -, h5⟩ := h
        exact Or.inr ⟨h3.symm, ⟨_, h5.symm⟩⟩
    | u8 =>
      cases h2 : vector_to_bytes v with
      | error e => simp only [fieldContrib, h2] at h; simp at h
      | ok bs =>
        simp only [fieldContrib, h2, Prod.mk.injEq, Except.ok.injEq] at h
        obtain ⟨-, -, h3, -, h5⟩ := h
        exact Or.inr ⟨h3.symm, ⟨_, h5.symm⟩⟩
    | u64 =>
      cases h2 : vector_to_bytes v with
      | error e => simp only [fieldContrib, h2] at h; simp at h
      | ok bs =>
        simp only [fieldContrib, h2, Prod.mk.injEq, Except.ok.injEq] at h
        obtain ⟨-, -, h3, -, h5⟩ := h
        exact Or.inr ⟨h3.symm, ⟨_, h5.symm⟩⟩
    | u128 =>
      cases h2 : vector_to_bytes v with
      | error e => simp only [fieldContrib, h2] at h; simp at h
      | ok bs =>
        simp only [fieldContrib, h2, Prod.mk.injEq, Except.ok.injEq] at h
        obtain ⟨-, -, h3, -, h5⟩ := h
        exact Or.inr ⟨h3.symm, ⟨_, h5.symm⟩⟩
    | signer => simp [fieldContrib] at h
    | address =>
      simp only [fieldContrib, Prod.mk.injEq, Except.ok.injEq] at h
      obtain ⟨-, -, h3, -, h5⟩ := h
      exact Or.inl ⟨h3.symm, h5.symm⟩
    | vector t =>
      simp only [fieldContrib, Prod.mk.injEq, Except.ok.injEq] at h
      obtain ⟨-, -, h3, -, h5⟩ := h
      exact Or.inl ⟨h3.symm, h5.symm⟩
    | struct_ st =>
      simp only [fieldContrib, Prod.mk.injEq, Except.ok.injEq] at h
      obtain ⟨-, -, h3, -, h5⟩ := h
      exact Or.inl ⟨h3.symm, h5.symm⟩

theorem lookup_cons_self {a : List Char} {b : SqlValue}
    {l : List (List Char × SqlValue)} : ((a, b) :: l).lookup a = some b := by
  simp [List.lookup]

theorem lookup_append_of_not_mem {a : List Char}
    {l1 l2 : List (List Char × SqlValue)} (h : a ∉ l1.map Prod.fst) :
    (l1 ++ l2).lookup a = l2.lookup a := by
  induction l1 with
  | nil => rfl
  | cons hd tl ih =>
    obtain ⟨k, v⟩ := hd
    simp only [List.map_cons, List.mem_cons] at h
    push_neg at h
    have hne : (a == k) = false := by
      simp only [beq_eq_false_iff_ne, ne_eq]
      exact h.1
    simp only [List.cons_append, List.lookup, hne]
    exact ih h.2

/-- A successful struct_to_sql run contains the INSERT of its own row,
carrying the returned rowid, somewhere in its statement list. -/
theorem struct_to_sql_has_insert {s : AnnotatedMoveStruct} {db : Db}
    {stmts : List Stmt} {db1 : Db} {id : Nat}
    (h : struct_to_sql s db = (stmts, db1, .ok id)) :
    ∃ pre post istmt, stmts = pre ++ istmt :: post ∧
      ((∃ cols vals, istmt = Stmt.insert (struct_tag_to_sql s.type_) cols vals id) ∨
        istmt = Stmt.insertDefault (struct_tag_to_sql s.type_) id) := by
  cases s with
  | mk r type_ value =>
    simp only [AnnotatedMoveStruct.type_]
    rcases h1 : fieldsLoop value db with ⟨s1, dbA, res1⟩
    simp only [struct_to_sql, h1] at h
    cases res1 with
    | error e => simp at h
    | ok tri =>
      obtain ⟨ns, ds, vs⟩ := tri
      rcases value with _ | ⟨hd, rest⟩
      · obtain ⟨hst, hres⟩ : s1 ++
            [Stmt.createTable (struct_tag_to_sql type_)
              [("id INTEGER PRIMARY KEY").toList],
              Stmt.insertDefault (struct_tag_to_sql type_)
                ((dbA.create (struct_tag_to_sql type_)).insertRow
                  (struct_tag_to_sql type_) []).2] = stmts ∧
            Except.ok ((dbA.create (struct_tag_to_sql type_)).insertRow
              (struct_tag_to_sql type_) []).2 = Except.ok id :=
          ⟨congrArg (fun p => p.1) h, congrArg (fun p => p.2.2) h⟩
        have hid : ((dbA.create (struct_tag_to_sql type_)).insertRow
            (struct_tag_to_sql type_) []).2 = id := by injection hres
        refine ⟨s1 ++ [Stmt.createTable (struct_tag_to_sql type_)
          [("id INTEGER PRIMARY KEY").toList]], [], _, ?_, Or.inr rfl⟩
        rw [← hst, hid]
        simp
      · dsimp only at h
        rcases h2 : vectorsLoop type_
          (((dbA.create (struct_tag_to_sql type_)).insertRow
            (struct_tag_to_sql type_) (ns.zip vs)).2) (hd :: rest)
          (((dbA.create (struct_tag_to_sql type_)).insertRow
            (struct_tag_to_sql type_) (ns.zip vs)).1) with ⟨s2, dbC, res2⟩
        rw [h2] at h
        cases res2 with
        | error e => simp at h
        | ok u =>
          obtain ⟨hst, hres⟩ : s1 ++
              [Stmt.createTable (struct_tag_to_sql type_)
                (("__id INTEGER PRIMARY KEY").toList :: ds),
                if ns.isEmpty then
                  Stmt.insertDefault (struct_tag_to_sql type_)
                    (((dbA.create (struct_tag_to_sql type_)).insertRow
                      (struct_tag_to_sql type_) (ns.zip vs)).2)
                else Stmt.insert (struct_tag_to_sql type_) ns vs
                  (((dbA.create (struct_tag_to_sql type_)).insertRow
                    (struct_tag_to_sql type_) (ns.zip vs)).2)] ++ s2 = stmts ∧
              Except.ok (((dbA.create (struct_tag_to_sql type_)).insertRow
                (struct_tag_to_sql type_) (ns.zip vs)).2) = Except.ok id :=
            ⟨congrArg (fun p => p.1) h, congrArg (fun p => p.2.2) h⟩
          have hid : ((dbA.create (struct_tag_to_sql type_)).insertRow
              (struct_tag_to_sql type_) (ns.zip vs)).2 = id := by injection hres
          refine ⟨s1 ++ [Stmt.createTable (struct_tag_to_sql type_)
            (("__id INTEGER PRIMARY KEY").toList :: ds)], s2,
            (if ns.isEmpty then Stmt.insertDefault (struct_tag_to_sql type_) id
             else Stmt.insert (struct_tag_to_sql type_) ns vs id), ?_, ?_⟩
          · rw [← hst, hid]
            simp
          · by_cases hns : ns.isEmpty
            · rw [if_pos hns]
              exact Or.inr rfl
            · rw [if_neg hns]
              exact Or.inl ⟨ns, vs, rfl⟩

/-- Inside a successful field loop, each struct field ran its own
struct_to_sql first and bound its fresh rowid to its column. -/
theorem fieldsLoop_struct_field :
    ∀ {value : List (Ident × AnnotatedMoveValue)} {db : Db} {stmts : List Stmt}
      {db1 : Db} {ns ds : List (List Char)} {vs : List SqlValue},
      fieldsLoop value db = (stmts, db1, .ok (ns, ds, vs)) →
      ∀ {ident : Ident} {child : AnnotatedMoveStruct},
        (ident, AnnotatedMoveValue.struct_ child) ∈ value →
        (value.map Prod.fst).Nodup →
        ∃ pre cstmts post dbx dby cid,
          stmts = pre ++ cstmts ++ post ∧
          struct_to_sql child dbx = (cstmts, dby, .ok cid) ∧
          (ns.zip vs).lookup ident = some (.int (cid : Int)) := by
  intro value
  induction value with
  | nil => intro db stmts db1 ns ds vs h ident child hmem; cases hmem
  | cons hd rest ih =>
    intro db stmts db1 ns ds vs h ident child hmem hnodup
    obtain ⟨i0, v0⟩ := hd
    rcases hc : fieldContrib i0 v0 db with ⟨sA, dbA, resA⟩
    simp only [fieldsLoop, hc] at h
    cases resA with
    | error e => simp at h
    | ok triA =>
      obtain ⟨nsA, dsA, vsA⟩ := triA
      dsimp only at h
      rcases hr : fieldsLoop rest dbA with ⟨sB, dbB, resB⟩
      rw [hr] at h
      cases resB with
      | error e => simp at h
      | ok triB =>
        obtain ⟨nsB, dsB, vsB⟩ := triB
        simp only [Prod.mk.injEq, Except.ok.injEq] at h
        obtain ⟨hst, -, hns, -, hvs⟩ := h
        have hlenA : nsA.length = vsA.length := by
          rcases fieldContrib_shape hc with ⟨h1, h2⟩ | ⟨h1, v, h2⟩ <;>
            rw [h1, h2] <;> rfl
        rcases List.mem_cons.mp hmem with heq | hmem2
        · obtain ⟨rfl, rfl⟩ : i0 = ident ∧ v0 = AnnotatedMoveValue.struct_ child :=
            ⟨(congrArg Prod.fst heq).symm, (congrArg Prod.snd heq).symm⟩
          rcases hcs : struct_to_sql child db with ⟨cs, dbc, resc⟩
          simp only [fieldContrib, hcs] at hc
          cases resc with
          | error e => simp at hc
          | ok cid =>
            simp only [Prod.mk.injEq, Except.ok.injEq] at hc
            obtain ⟨hsA, hdbA, hnsA, -, hvsA⟩ := hc
            refine ⟨[], cs, sB, db, dbc, cid, ?_, hcs, ?_⟩
            · rw [← hst, ← hsA]
              simp
            · rw [← hns, ← hvs, ← hnsA, ← hvsA]
              exact lookup_cons_self
        · simp only [List.map_cons, List.nodup_cons] at hnodup
          have hident_ne : ident ≠ i0 := by
            intro heq2
            exact hnodup.1 (heq2 ▸ List.mem_map_of_mem Prod.fst hmem2)
          obtain ⟨pre, cstmts, post, dbx, dby, cid, hdec, hrun, hlook⟩ :=
            ih hr hmem2 hnodup.2
          have hna : ident ∉ (nsA.zip vsA).map Prod.fst := by
            rcases fieldContrib_shape hc with ⟨h1, h2⟩ | ⟨h1, v, h2⟩
            · rw [h1, h2]
              simp
            · rw [h1, h2]
              simp [hident_ne]
          refine ⟨sA ++ pre, cstmts, post, dbx, dby, cid, ?_, hrun, ?_⟩
          · rw [← hst, hdec]
            simp
          · rw [← hns, ← hvs, List.zip_append hlenA,
              lookup_append_of_not_mem hna, hlook]

/-- C9: in every successful run of the writer on a struct with a
struct-typed field (distinct field names), the INSERT of the child
struct row is issued strictly before the parent row INSERT, and the
parent INSERT binds the field column to the rowid returned by that
earlier child insert (src/db.rs lines 175-180 and 207-226). -/
theorem C9_child_insert_precedes_parent {s : AnnotatedMoveStruct} {db : Db}
    {stmts : List Stmt} {db1 : Db} {pid : Nat}
    (h : struct_to_sql s db = (stmts, db1, .ok pid))
    {ident : Ident} {child : AnnotatedMoveStruct}
    (hmem : (ident, AnnotatedMoveValue.struct_ child) ∈ s.value)
    (hnodup : (s.value.map Prod.fst).Nodup) :
    ∃ l1 l2 l3 cstmt cid cols vals,
      stmts = l1 ++ cstmt ::
        l2 ++ Stmt.insert (struct_tag_to_sql s.type_) cols vals pid :: l3 ∧
      ((∃ ccols cvals,
          cstmt = Stmt.insert (struct_tag_to_sql child.type_) ccols cvals cid) ∨
        cstmt = Stmt.insertDefault (struct_tag_to_sql child.type_) cid) ∧
      (cols.zip vals).lookup ident = some (.int (cid : Int)) := by
  cases s with
  | mk r type_ value =>
    simp only [AnnotatedMoveStruct.value] at hmem hnodup
    simp only [AnnotatedMoveStruct.type_]
    rcases h1 : fieldsLoop value db with ⟨s1, dbA, res1⟩
    simp only [struct_to_sql, h1] at h
    cases res1 with
    | error e => simp at h
    | ok tri =>
      obtain ⟨ns, ds, vs⟩ := tri
      rcases value with _ | ⟨hd, rest⟩
      · cases hmem
      · dsimp only at h
        rcases h2 : vectorsLoop type_
          (((dbA.create (struct_tag_to_sql type_)).insertRow
            (struct_tag_to_sql type_) (ns.zip vs)).2) (hd :: rest)
          (((dbA.create (struct_tag_to_sql type_)).insertRow
            (struct_tag_to_sql type_) (ns.zip vs)).1) with ⟨s2, dbC, res2⟩
        rw [h2] at h
        cases res2 with
        | error e => simp at h
        | ok u =>
          obtain ⟨hst, hres⟩ : s1 ++
              [Stmt.createTable (struct_tag_to_sql type_)
                (("__id INTEGER PRIMARY KEY").toList :: ds),
                if ns.isEmpty then
                  Stmt.insertDefault (struct_tag_to_sql type_)
                    (((dbA.create (struct_tag_to_sql type_)).insertRow
                      (struct_tag_to_sql type_) (ns.zip vs)).2)
                else Stmt.insert (struct_tag_to_sql type_) ns vs
                  (((dbA.create (struct_tag_to_sql type_)).insertRow
                    (struct_tag_to_sql type_) (ns.zip vs)).2)] ++ s2 = stmts ∧
              Except.ok (((dbA.create (struct_tag_to_sql type_)).insertRow
                (struct_tag_to_sql type_) (ns.zip vs)).2) = Except.ok pid :=
            ⟨congrArg (fun p => p.1) h, congrArg (fun p => p.2.2) h⟩
          have hid : ((dbA.create (struct_tag_to_sql type_)).insertRow
              (struct_tag_to_sql type_) (ns.zip vs)).2 = pid := by injection hres
          obtain ⟨pre, cstmts, post, dbx, dby, cid, hdec, hrun, hlook⟩ :=
            fieldsLoop_struct_field h1 hmem hnodup
          obtain ⟨cpre, cpost, cistmt, hceq, hckind⟩ :=
            struct_to_sql_has_insert hrun
          have hns : ns.isEmpty = false := by
            cases ns with
            | nil => simp [List.lookup] at hlook
            | cons a l => rfl
          rw [hns] at hst
          simp only [Bool.false_eq_true, if_false] at hst
          refine ⟨pre ++ cpre, cpost ++ post ++
            [Stmt.createTable (struct_tag_to_sql type_)
              (("__id INTEGER PRIMARY KEY").toList :: ds)], s2,
            cistmt, cid, ns, vs, ?_, hckind, hlook⟩
          rw [← hst, hid, hdec, hceq]
          simp

def childC9 : AnnotatedMoveStruct :=
  .mk true (StructTag.mk [1] ("M".toList) ("E".toList) []) []

def parC9 : AnnotatedMoveStruct :=
  .mk true (StructTag.mk [1] ("M".toList) ("P".toList) [])
    [(("c".toList), .struct_ childC9)]

theorem C9_child_insert_precedes_parent_witness :
    ∃ l1 l2 l3 cstmt cid cols vals,
      (struct_to_sql parC9 Db.empty).1 = l1 ++ cstmt ::
        l2 ++ Stmt.insert (struct_tag_to_sql parC9.type_) cols vals 1 :: l3 ∧
      ((∃ ccols cvals,
          cstmt = Stmt.insert (struct_tag_to_sql childC9.type_) ccols cvals cid) ∨
        cstmt = Stmt.insertDefault (struct_tag_to_sql childC9.type_) cid) ∧
      (cols.zip vals).lookup ("c".toList) = some (.int (cid : Int)) :=
  C9_child_insert_precedes_parent
    (show struct_to_sql parC9 Db.empty =
      ((struct_to_sql parC9 Db.empty).1,
        (struct_to_sql parC9 Db.empty).2.1, .ok 1) from rfl)
    (show (("c".toList), AnnotatedMoveValue.struct_ childC9) ∈ parC9.value from
      by simp [parC9, AnnotatedMoveStruct.value])
    (by simp [parC9, AnnotatedMoveStruct.value])

/-! ## Claim C1: writer/reader round-trip

The claim fails as stated: a field holding a vector of U64 (not a vector
of vectors) is written inline as one BLOB column, but the reader treats
every non-U8 vector field as living in an element table and selects from
a table the writer never created, so the fetch panics. The corrected
round-trip below covers structs whose fields are in-range scalars, byte
strings and nested non-empty structs with distinct field names. -/

mutual
/-- Reader fuel consumed below one field value: only struct fields recurse
into another fetch_struct frame. -/
def costVal : AnnotatedMoveValue → Nat
  | .struct_ s => costStruct s
  | _ => 0

/-- Reader fuel fieldsRead needs on a field list. -/
def costFields : List (Ident × AnnotatedMoveValue) → Nat
  | [] => 1
  | (_, v) :: rest => 1 + max (costVal v) (costFields rest)

/-- Reader fuel fetch_struct needs on a struct value. -/
def costStruct : AnnotatedMoveStruct → Nat
  | .mk _ _ value => 1 + costFields value
end

mutual
/-- The annotated values, paired with their declared normalized field
type, on which the writer column encoding and the reader column decoding
agree: in-range scalars, sixteen-byte addresses, byte strings declared
Vector of U8, and nested storable structs whose tag matches the declared
struct type and which the resolver knows. -/
inductive StorableVal (resolve : StructTag → Option NStruct) :
    AnnotatedMoveValue → NType → Prop where
  | u8 {i : Nat} (h : i < 256) : StorableVal resolve (.u8 i) .u8
  | u64 {i : Nat} (h : i < 2 ^ 64) : StorableVal resolve (.u64 i) .u64
  | u128 {i : Nat} (h : i < 2 ^ 128) : StorableVal resolve (.u128 i) .u128
  | bool_ {b : Bool} : StorableVal resolve (.bool_ b) .bool
  | address {a : List Byte} (h : a.length = 16) :
      StorableVal resolve (.address a) .address
  | bytes {bs : List Byte} : StorableVal resolve (.bytes bs) (.vector .u8)
  | struct_ {child : AnnotatedMoveStruct} {a : List Byte} {m n : Ident}
      {targs : List NType} {tts : List TypeTag} {cns : NStruct}
      (ht : intoTypeTagList targs = some tts)
      (htag : child.type_ = .mk a m n tts)
      (hres : resolve (.mk a m n tts) = some cns)
      (hs : StorableStruct resolve child cns) :
      StorableVal resolve (.struct_ child) (.struct_ a m n targs)

/-- Pointwise storability of a field list against the declared fields,
with matching names in matching order. -/
inductive StorableFields (resolve : StructTag → Option NStruct) :
    List (Ident × AnnotatedMoveValue) → List NField → Prop where
  | nil : StorableFields resolve [] []
  | cons {ident : Ident} {v : AnnotatedMoveValue} {ty : NType}
      {rest : List (Ident × AnnotatedMoveValue)} {frest : List NField}
      (h : StorableVal resolve v ty)
      (hrest : StorableFields resolve rest frest) :
      StorableFields resolve ((ident, v) :: rest) (⟨ident, ty⟩ :: frest)

/-- A storable struct: at least one field (the zero-field branch declares
a bare id column the reader never finds), distinct field names, and
storable fields against the resolved field list. -/
inductive StorableStruct (resolve : StructTag → Option NStruct) :
    AnnotatedMoveStruct → NStruct → Prop where
  | mk {r : Bool} {tag : StructTag} {value : List (Ident × AnnotatedMoveValue)}
      {fs : List NField}
      (hne : value ≠ [])
      (hnd : (value.map Prod.fst).Nodup)
      (hf : StorableFields resolve value fs) :
      StorableStruct resolve (.mk r tag value) (.mk fs)
end

/-- What the writer left in one column suffices for the reader: the
stored SQL value decodes back to the erased field value, and a struct
field's stored rowid fetches back to the erased child in every extension
of the database state reached after the field was written. -/
def FieldOk (resolve : StructTag → Option NStruct) (db1 : Db)
    (v : AnnotatedMoveValue) (ty : NType) (sv : SqlValue) : Prop :=
  match v, ty with
  | .u8 i, .u8 => sv = .int (i : Int) ∧ i < 256
  | .u64 i, .u64 => sv = .int (i : Int) ∧ i < 2 ^ 64
  | .u128 i, .u128 => sv = .blob (beBytes 16 i) ∧ i < 2 ^ 128
  | .bool_ b, .bool => sv = .boolean b
  | .address a, .address => sv = .blob a ∧ a.length = 16
  | .bytes bs, .vector .u8 => sv = .blob bs
  | .struct_ child, .struct_ a m n targs =>
    ∃ (tts : List TypeTag) (cid : Nat),
      intoTypeTagList targs = some tts ∧ sv = .int (cid : Int) ∧
      ∀ db2, Ext db1 db2 → ∀ fuel, costStruct child ≤ fuel →
        fetch_struct resolve fuel (.mk a m n tts) cid db2 =
          .ok (eraseVal (.struct_ child))
  | _, _ => False

/-- FieldOk over the three lists of a written field block. -/
inductive FieldsOk (resolve : StructTag → Option NStruct) (db1 : Db) :
    List (Ident × AnnotatedMoveValue) → List NField → List SqlValue → Prop where
  | nil : FieldsOk resolve db1 [] [] []
  | cons {ident : Ident} {v : AnnotatedMoveValue} {ty : NType} {sv : SqlValue}
      {rest : List (Ident × AnnotatedMoveValue)} {frest : List NField}
      {svrest : List SqlValue}
      (h : FieldOk resolve db1 v ty sv)
      (hrest : FieldsOk resolve db1 rest frest svrest) :
      FieldsOk resolve db1 ((ident, v) :: rest) (⟨ident, ty⟩ :: frest)
        (sv :: svrest)

/-- FieldOk only constrains the database through extensions, so it
persists along Ext. -/
theorem FieldOk_mono {resolve : StructTag → Option NStruct} {db1 db2 : Db}
    {v : AnnotatedMoveValue} {ty : NType} {sv : SqlValue}
    (hext : Ext db1 db2) (h : FieldOk resolve db1 v ty sv) :
    FieldOk resolve db2 v ty sv := by
  cases v <;> cases ty <;> try exact h
  all_goals try (rename_i t; cases t <;> exact h)
  case struct_.struct_ a m n targs =>
    simp only [FieldOk] at h ⊢
    obtain ⟨tts, cid, h1, h2, h3⟩ := h
    exact ⟨tts, cid, h1, h2, fun db3 he3 => h3 db3 (hext.trans he3)⟩

/-- FieldsOk persists along Ext. -/
theorem FieldsOk_mono {resolve : StructTag → Option NStruct} {db1 db2 : Db}
    {value : List (Ident × AnnotatedMoveValue)} {frest : List NField}
    {svs : List SqlValue} (hext : Ext db1 db2)
    (h : FieldsOk resolve db1 value frest svs) :
    FieldsOk resolve db2 value frest svs := by
  induction h with
  | nil => exact .nil
  | cons h hrest ih => exact .cons (FieldOk_mono hext h) ih

/-- The value list of a written field block has one entry per field. -/
theorem FieldsOk.length {resolve : StructTag → Option NStruct} {db1 : Db}
    {value : List (Ident × AnnotatedMoveValue)} {frest : List NField}
    {svs : List SqlValue} (h : FieldsOk resolve db1 value frest svs) :
    svs.length = value.length := by
  induction h with
  | nil => rfl
  | cons h hrest ih => simp [ih]

/-- Storable values are never vector values: primitive vectors are the
counterexample and complex vectors are out of the corrected claim. -/
theorem storableVal_not_vector {resolve : StructTag → Option NStruct}
    {v : AnnotatedMoveValue} {ty : NType} (h : StorableVal resolve v ty) :
    ∀ tv elems, v ≠ .vector tv elems := by
  cases h <;> intro tv elems <;> intro hc <;> cases hc

/-- No field of a storable field list holds a vector value. -/
theorem storableFields_not_vector {resolve : StructTag → Option NStruct} :
    ∀ {value : List (Ident × AnnotatedMoveValue)} {frest : List NField},
      StorableFields resolve value frest →
      ∀ p ∈ value, ∀ tv elems, p.2 ≠ .vector tv elems := by
  intro value
  induction value with
  | nil => intro frest h p hp; cases hp
  | cons hd rest ih =>
    intro frest h p hp
    obtain ⟨i0, v0⟩ := hd
    cases h with
    | cons hv hrest =>
      rcases List.mem_cons.mp hp with rfl | hp2
      · exact storableVal_not_vector hv
      · exact ih hrest p hp2

/-- The vectors loop is the identity on a field list without vector
values. -/
theorem vectorsLoop_skip (type_ : StructTag) (id : Nat) :
    ∀ (value : List (Ident × AnnotatedMoveValue)) (db : Db),
      (∀ p ∈ value, ∀ tv elems, p.2 ≠ AnnotatedMoveValue.vector tv elems) →
      vectorsLoop type_ id value db = ([], db, .ok ()) := by
  intro value
  induction value with
  | nil => intro db hnv; rfl
  | cons hd rest ih =>
    intro db hnv
    obtain ⟨ident, val⟩ := hd
    have hv := hnv (ident, val) (by simp)
    cases val with
    | vector tv elems => exact absurd rfl (hv tv elems)
    | u8 i => exact ih db (fun p hp => hnv p (by simp [hp]))
    | u64 i => exact ih db (fun p hp => hnv p (by simp [hp]))
    | u128 i => exact ih db (fun p hp => hnv p (by simp [hp]))
    | bool_ b => exact ih db (fun p hp => hnv p (by simp [hp]))
    | address a => exact ih db (fun p hp => hnv p (by simp [hp]))
    | bytes bs => exact ih db (fun p hp => hnv p (by simp [hp]))
    | struct_ s => exact ih db (fun p hp => hnv p (by simp [hp]))

/-- Every storable field owns an inline column, so the SELECT list is
exactly the field names in order. -/
theorem columnsOfFields_storable {resolve : StructTag → Option NStruct}
    (tag : StructTag) :
    ∀ {value : List (Ident × AnnotatedMoveValue)} {frest : List NField},
      StorableFields resolve value frest →
      columnsOfFields tag frest = .ok (value.map Prod.fst) := by
  intro value
  induction value with
  | nil => intro frest h; cases h; rfl
  | cons hd rest ih =>
    intro frest h
    obtain ⟨i0, v0⟩ := hd
    cases h with
    | cons hv hrest =>
      rename_i ty frest2
      have hcol : columnOfField tag ⟨i0, ty⟩ = .ok (some i0) := by
        cases hv <;> rfl
      simp only [List.map_cons, columnsOfFields, hcol, ih hrest]

/-- Looking a list of distinct names up at its k-th entry in a zip with a
value list finds the k-th value. -/
theorem lookup_zip_nodup :
    ∀ {ns : List (List Char)} {vs : List SqlValue} {k : Nat} {c : List Char}
      {sv : SqlValue}, ns.Nodup → ns.get? k = some c → vs.get? k = some sv →
      (ns.zip vs).lookup c = some sv := by
  intro ns
  induction ns with
  | nil => intro vs k c sv hnd hc hv; simp at hc
  | cons n0 nrest ih =>
    intro vs k c sv hnd hc hv
    cases vs with
    | nil => simp at hv
    | cons v0 vrest =>
      cases k with
      | zero =>
        obtain rfl : n0 = c := by simpa using hc
        obtain rfl : v0 = sv := by simpa using hv
        exact lookup_cons_self
      | succ k =>
        simp only [List.get?_cons_succ] at hc hv
        simp only [List.nodup_cons] at hnd
        have hcne : c ≠ n0 := by
          intro h
          exact hnd.1 (h ▸ List.get?_mem hc)
        have hne : (c == n0) = false := by
          simp [hcne]
        simp only [List.zip_cons_cons, List.lookup, hne]
        exact ih hnd.2 hc hv

/-- rowGet on the row a struct INSERT wrote: with distinct column names
and matching lengths, position k holds the k-th bound value. -/
theorem rowGet_zip {ns : List (List Char)} {vs : List SqlValue}
    (hnd : ns.Nodup) (hlen : ns.length = vs.length) {k : Nat} {sv : SqlValue}
    (hv : vs.get? k = some sv) : rowGet ns (ns.zip vs) k = .ok sv := by
  have hk : k < ns.length := by
    rw [hlen]
    exact (List.get?_eq_some.mp hv).1
  have hc : ns.get? k = some (ns.get ⟨k, hk⟩) := List.get?_eq_get hk
  have hl := lookup_zip_nodup hnd hc hv
  simp only [rowGet, hc, hl]

/-- The reader field loop rebuilds the erased field values from a written
field block: in any extension of the database state, with enough fuel,
reading consecutive positions of any column list and row that return the
written values. -/
theorem fieldsRead_of_FieldsOk {resolve : StructTag → Option NStruct}
    {db1 : Db} {value : List (Ident × AnnotatedMoveValue)}
    {frest : List NField} {svs : List SqlValue}
    (h : FieldsOk resolve db1 value frest svs) :
    ∀ {db2 : Db}, Ext db1 db2 → ∀ {fuel : Nat}, costFields value ≤ fuel →
    ∀ (tag : StructTag) (id : Nat) (cols : List Ident) (row : Row) (idx : Nat),
      (∀ k sv, svs.get? k = some sv → rowGet cols row (idx + k) = .ok sv) →
      fieldsRead resolve fuel tag id cols row idx frest db2 =
        .ok (eraseFields value) := by
  induction h with
  | nil =>
    intro db2 hext fuel hfuel tag id cols row idx hrow
    cases fuel with
    | zero => simp [costFields] at hfuel
    | succ f => rfl
  | @cons ident v ty sv rest frest2 svrest hfo hrest ih =>
    intro db2 hext fuel hfuel tag id cols row idx hrow
    cases fuel with
    | zero => simp only [costFields] at hfuel; omega
    | succ f =>
      simp only [costFields] at hfuel
      have hvf : costVal v ≤ f := by omega
      have hrf : costFields rest ≤ f := by omega
      have h0 := hrow 0 sv rfl
      rw [Nat.add_zero] at h0
      have hrow2 : ∀ k sv0, svrest.get? k = some sv0 →
          rowGet cols row (idx + 1 + k) = .ok sv0 := by
        intro k sv0 hk
        have h2 := hrow (k + 1) sv0 (by simpa using hk)
        rwa [show idx + (k + 1) = idx + 1 + k by omega] at h2
      have hrec := ih hext hrf tag id cols row (idx + 1) hrow2
      cases v with
      | u8 i =>
        cases ty <;> try exact hfo.elim
        case u8 =>
          obtain ⟨rfl, hlt⟩ : sv = SqlValue.int (i : Int) ∧ i < 256 := hfo
          have hcast : castU8 ((i : Nat) : Int) = i := by
            simp only [castU8]
            omega
          simp only [fieldsRead, h0, getInt, hcast, hrec, eraseFields, eraseVal]
      | u64 i =>
        cases ty <;> try exact hfo.elim
        case u64 =>
          obtain ⟨rfl, hlt⟩ : sv = SqlValue.int (i : Int) ∧ i < 2 ^ 64 := hfo
          have hcast : castU64 ((i : Nat) : Int) = i := by
            simp only [castU64]
            omega
          simp only [fieldsRead, h0, getInt, hcast, hrec, eraseFields, eraseVal]
      | u128 i =>
        cases ty <;> try exact hfo.elim
        case u128 =>
          obtain ⟨rfl, hlt⟩ : sv = SqlValue.blob (beBytes 16 i) ∧ i < 2 ^ 128 :=
            hfo
          have hfb : u128FromBlob (beBytes 16 i) = .ok i := by
            have h16 : (256 : Nat) ^ 16 = 2 ^ 128 := by norm_num
            simp only [u128FromBlob, beBytes_length, if_true]
            rw [fromBe_beBytes 16 i (by omega)]
          simp only [fieldsRead, h0, getBlob, hfb, hrec, eraseFields, eraseVal]
      | bool_ b =>
        cases ty <;> try exact hfo.elim
        case bool =>
          obtain rfl : sv = SqlValue.boolean b := hfo
          simp only [fieldsRead, h0, getBool, hrec, eraseFields, eraseVal]
      | address a =>
        cases ty <;> try exact hfo.elim
        case address =>
          obtain ⟨rfl, hlen16⟩ : sv = SqlValue.blob a ∧ a.length = 16 := hfo
          have hab : addressFromBlob a = .ok a := by
            simp [addressFromBlob, hlen16]
          simp only [fieldsRead, h0, getBlob, hab, hrec, eraseFields, eraseVal]
      | vector tv es =>
        cases ty <;> exact hfo.elim
      | bytes bs =>
        cases ty <;> try exact hfo.elim
        case vector t =>
          cases t <;> try exact hfo.elim
          case u8 =>
            obtain rfl : sv = SqlValue.blob bs := hfo
            simp only [fieldsRead, h0, getBlob, hrec, eraseFields, eraseVal]
      | struct_ child =>
        cases ty <;> try exact hfo.elim
        case struct_ a m n targs =>
          obtain ⟨tts, cid, ht, rfl, hfetch⟩ :
              ∃ (tts : List TypeTag) (cid : Nat),
                intoTypeTagList targs = some tts ∧
                sv = SqlValue.int (cid : Int) ∧
                ∀ db3, Ext db1 db3 → ∀ fl, costStruct child ≤ fl →
                  fetch_struct resolve fl (.mk a m n tts) cid db3 =
                    .ok (eraseVal (.struct_ child)) := hfo
          have hf2 := hfetch db2 hext f hvf
          simp only [fieldsRead, ht, h0, getInt, Int.toNat_natCast, hf2, hrec,
            eraseFields, eraseVal]

mutual
/-- A storable struct writes successfully, only extends the database, and
the returned rowid fetches back to the erased Move value in every later
extension of the database, at any sufficient fuel. -/
theorem struct_to_sql_storable (s : AnnotatedMoveStruct) :
    ∀ {resolve : StructTag → Option NStruct} {ns : NStruct},
      StorableStruct resolve s ns → resolve s.type_ = some ns →
      ∀ db : Db, ∃ stmts db1 id,
        struct_to_sql s db = (stmts, db1, .ok id) ∧ Ext db db1 ∧
        ∀ db2, Ext db1 db2 → ∀ fuel, costStruct s ≤ fuel →
          fetch_struct resolve fuel s.type_ id db2 =
            .ok (eraseVal (.struct_ s)) := by
  cases s with
  | mk r tag value =>
    intro resolve ns hs hres db
    simp only [AnnotatedMoveStruct.type_] at hres ⊢
    cases hs with
    | mk hne hnd hf =>
      rename_i fs
      obtain ⟨s1, dbA, ds, vs, hw, hextA, hok⟩ :=
        fieldsLoop_storable value hf db
      rcases value with _ | ⟨hd, rest⟩
      · exact absurd rfl hne
      · obtain ⟨i0, v0⟩ := hd
        have hskip := vectorsLoop_skip tag
          (((dbA.create (struct_tag_to_sql tag)).insertRow (struct_tag_to_sql tag)
            ((((i0, v0) :: rest).map Prod.fst).zip vs)).2)
          ((i0, v0) :: rest)
          (((dbA.create (struct_tag_to_sql tag)).insertRow (struct_tag_to_sql tag)
            ((((i0, v0) :: rest).map Prod.fst).zip vs)).1)
          (storableFields_not_vector hf)
        have heq : struct_to_sql (.mk r tag ((i0, v0) :: rest)) db =
            (s1 ++ [Stmt.createTable (struct_tag_to_sql tag)
                (("__id INTEGER PRIMARY KEY").toList :: ds),
              Stmt.insert (struct_tag_to_sql tag)
                (((i0, v0) :: rest).map Prod.fst) vs
                (((dbA.create (struct_tag_to_sql tag)).insertRow
                  (struct_tag_to_sql tag)
                  ((((i0, v0) :: rest).map Prod.fst).zip vs)).2)],
             ((dbA.create (struct_tag_to_sql tag)).insertRow
               (struct_tag_to_sql tag)
               ((((i0, v0) :: rest).map Prod.fst).zip vs)).1,
             .ok (((dbA.create (struct_tag_to_sql tag)).insertRow
               (struct_tag_to_sql tag)
               ((((i0, v0) :: rest).map Prod.fst).zip vs)).2)) := by
          simp only [struct_to_sql, hw]
          rw [hskip]
          simp
        refine ⟨_, _, _, heq, ?_, ?_⟩
        · exact hextA.trans ((Ext.create dbA (struct_tag_to_sql tag)).trans
            (Ext.insert (dbA.create (struct_tag_to_sql tag))
              (struct_tag_to_sql tag) _))
        · intro db2 hext2 fuel hfuel
          simp only [costStruct] at hfuel
          cases fuel with
          | zero => omega
          | succ f =>
            have hextMid : Ext dbA db2 :=
              (((Ext.create dbA (struct_tag_to_sql tag)).trans
                (Ext.insert (dbA.create (struct_tag_to_sql tag))
                  (struct_tag_to_sql tag) _))).trans hext2
            have hsc : struct_columns tag (NStruct.mk fs) =
                .ok (((i0, v0) :: rest).map Prod.fst) :=
              columnsOfFields_storable tag hf
            have hrowAt : db2.rowAt (struct_tag_to_sql tag)
                (((dbA.create (struct_tag_to_sql tag)).insertRow
                  (struct_tag_to_sql tag)
                  ((((i0, v0) :: rest).map Prod.fst).zip vs)).2) =
                some ((((i0, v0) :: rest).map Prod.fst).zip vs) :=
              hext2.rowAt_mono _ _ _
                (rowAt_insert_self (dbA.create (struct_tag_to_sql tag))
                  (struct_tag_to_sql tag) _)
            have hlen : (((i0, v0) :: rest).map Prod.fst).length = vs.length := by
              rw [hok.length]
              simp
            have hrow : ∀ k sv, vs.get? k = some sv →
                rowGet (((i0, v0) :: rest).map Prod.fst)
                  ((((i0, v0) :: rest).map Prod.fst).zip vs) (0 + k) = .ok sv := by
              intro k sv hk
              rw [Nat.zero_add]
              exact rowGet_zip hnd hlen hk
            have hread := fieldsRead_of_FieldsOk (FieldsOk_mono hextMid hok)
              (Ext.rfl db2) (by omega : costFields ((i0, v0) :: rest) ≤ f)
              tag (((dbA.create (struct_tag_to_sql tag)).insertRow
                (struct_tag_to_sql tag)
                ((((i0, v0) :: rest).map Prod.fst).zip vs)).2)
              (((i0, v0) :: rest).map Prod.fst)
              ((((i0, v0) :: rest).map Prod.fst).zip vs) 0 hrow
            simp only [fetch_struct, hres, hsc, hrowAt, hread]
            simp [eraseVal, eraseStruct]

/-- The first field loop of the writer on a storable field list: every
field contributes its column in order, the database only extends, and the
bound values pass FieldOk at the final state. -/
theorem fieldsLoop_storable (value : List (Ident × AnnotatedMoveValue)) :
    ∀ {resolve : StructTag → Option NStruct} {frest : List NField},
      StorableFields resolve value frest →
      ∀ db : Db, ∃ stmts db1 ds vs,
        fieldsLoop value db = (stmts, db1, .ok (value.map Prod.fst, ds, vs)) ∧
        Ext db db1 ∧ FieldsOk resolve db1 value frest vs := by
  cases value with
  | nil =>
    intro resolve frest h db
    cases h
    exact ⟨[], db, [], [], rfl, Ext.rfl db, .nil⟩
  | cons hd rest =>
    intro resolve frest h db
    obtain ⟨i0, v0⟩ := hd
    cases h with
    | cons hv hrest =>
      obtain ⟨sA, dbA, d, sv, hcw, hextA, hfoA⟩ :=
        fieldContrib_storable v0 hv i0 db
      obtain ⟨sB, dbB, dsB, vsB, hfw, hextB, hfoB⟩ :=
        fieldsLoop_storable rest hrest dbA
      refine ⟨sA ++ sB, dbB, d :: dsB, sv :: vsB, ?_, hextA.trans hextB, ?_⟩
      · simp only [fieldsLoop, hcw, hfw, List.map_cons, List.singleton_append]
      · exact .cons (FieldOk_mono hextB hfoA) hfoB

/-- One storable field contributes exactly one column, one declaration
and one bound value satisfying FieldOk, extending the database only when
the field is a nested struct. -/
theorem fieldContrib_storable (v : AnnotatedMoveValue) :
    ∀ {resolve : StructTag → Option NStruct} {ty : NType},
      StorableVal resolve v ty →
      ∀ (ident : Ident) (db : Db), ∃ stmts db1 d sv,
        fieldContrib ident v db = (stmts, db1, .ok ([ident], [d], [sv])) ∧
        Ext db db1 ∧ FieldOk resolve db1 v ty sv := by
  intro resolve ty h ident db
  cases h with
  | u8 hi => exact ⟨[], db, _, _, rfl, Ext.rfl db, ⟨rfl, hi⟩⟩
  | u64 hi => exact ⟨[], db, _, _, rfl, Ext.rfl db, ⟨rfl, hi⟩⟩
  | u128 hi => exact ⟨[], db, _, _, rfl, Ext.rfl db, ⟨rfl, hi⟩⟩
  | bool_ => exact ⟨[], db, _, _, rfl, Ext.rfl db, rfl⟩
  | address ha => exact ⟨[], db, _, _, rfl, Ext.rfl db, ⟨rfl, ha⟩⟩
  | bytes => exact ⟨[], db, _, _, rfl, Ext.rfl db, rfl⟩
  | struct_ ht htag hres hs =>
    rename_i child a m n targs tts cns
    have hres2 : resolve child.type_ = some cns := by
      rw [htag]
      exact hres
    obtain ⟨cs, dbc, cid, hcw, hextc, hread⟩ :=
      struct_to_sql_storable child hs hres2 db
    refine ⟨cs, dbc, ident ++ (" INTEGER NOT NULL").toList,
      .int (cid : Int), ?_, hextc, ?_⟩
    · simp only [fieldContrib, hcw]
    · refine ⟨tts, cid, ht, rfl, ?_⟩
      intro db2 he2 fuel hfl
      have hr := hread db2 he2 fuel hfl
      rwa [htag] at hr
end

/-- C1 as stated fails on this source. The struct {a: U64 = 7,
v: Vector<U64> = [5]} has no vector-of-vector field and stores fine (the
vector goes inline into one BLOB column), yet fetching the stored row
back errors: the reader treats every vector field whose element is not U8
as living in a separate element table and SELECTs from a table the writer
never created, so sqlx fails with no-such-table and the source unwraps
the failure (src/db.rs lines 181-192 against lines 409-423 and 569-675). -/
theorem C1_counterexample_primitive_vector_lost :
    (let addr : List Byte := List.replicate 16 9
    let tag : StructTag := .mk [1] ("M").toList ("S").toList []
    let s : AnnotatedMoveStruct := .mk true tag
      [(("a").toList, .u64 7), (("v").toList, .vector .u64 [.u64 5])]
    let resolve : StructTag → Option NStruct := fun _ =>
      some ⟨[⟨("a").toList, .u64⟩, ⟨("v").toList, .vector .u64⟩]⟩
    let run := store addr tag s Db.empty
    run.2.2 = .ok () ∧
    lookupRoot run.2.1 tag addr = some 1 ∧
    fetch_struct resolve 9 tag 1 run.2.1 =
      .error (.panic ("no such table").toList)) :=
  ⟨rfl, rfl, rfl⟩

/-- find? skips a prefix on which the predicate fails. -/
theorem find?_append_right {p : Row → Bool} {l1 l2 : List Row}
    (h : ∀ r ∈ l1, p r = false) : (l1 ++ l2).find? p = l2.find? p := by
  induction l1 with
  | nil => rfl
  | cons a l ih =>
    have ha := h a (by simp)
    rw [List.cons_append, List.find?_cons, ha]
    exact ih (fun r hr => h r (by simp [hr]))

/-- C1 corrected: the round-trip holds for storable resources — structs
whose fields are in-range scalars, sixteen-byte addresses, byte strings
and nested non-empty storable structs with distinct field names, with no
vector fields. Stored into a database whose root table does not hold the
address yet, the value comes back from fetch_struct at the id the root
table maps the address to. -/
theorem C1_roundtrip_storable
    (resolve : StructTag → Option NStruct) (address : List Byte)
    (s : AnnotatedMoveStruct) (ns : NStruct) (db : Db)
    (hres : resolve s.type_ = some ns)
    (hs : StorableStruct resolve s ns)
    (hfree : ∀ r ∈ db.rows (root_table_name s.type_),
      r.lookup ("address").toList ≠ some (.blob address)) :
    ∃ stmts db2 id,
      store address s.type_ s db = (stmts, db2, .ok ()) ∧
      lookupRoot db2 s.type_ address = some id ∧
      ∀ fuel, costStruct s ≤ fuel →
        fetch_struct resolve fuel s.type_ id db2 =
          .ok (eraseVal (.struct_ s)) := by
  obtain ⟨s1, db1, id, hw, hext1, hread⟩ := struct_to_sql_storable s hs hres db
  have hw2 := struct_to_sql_effects s db
  simp only [hw] at hw2
  have huntouched : db1 (root_table_name s.type_) =
      db (root_table_name s.type_) := by
    refine hw2.2.1 _ ?_
    rw [root_table_name_head]
    decide
  have hrows1 : (db1.create (root_table_name s.type_)).rows
      (root_table_name s.type_) = db.rows (root_table_name s.type_) := by
    rw [rows_create]
    unfold Db.rows
    rw [huntouched]
  have hany : ((db1.create (root_table_name s.type_)).rows
        (root_table_name s.type_)).any
      (fun r => r.lookup ("address").toList == some (.blob address)) = false := by
    rw [hrows1, List.any_eq_false]
    intro r hr
    simpa using hfree r hr
  have hstore : store address s.type_ s db =
      (s1 ++ [.createTable (root_table_name s.type_)
          [("address BLOB UNIQUE NOT NULL").toList,
            ("id INTEGER NOT NULL").toList],
        .insert (root_table_name s.type_)
          [("address").toList, ("id").toList]
          [.blob address, .int (id : Int)]
          ((db1.create (root_table_name s.type_)).insertRow
            (root_table_name s.type_)
            ([("address").toList, ("id").toList].zip
              [.blob address, .int (id : Int)])).2],
       ((db1.create (root_table_name s.type_)).insertRow
         (root_table_name s.type_)
         ([("address").toList, ("id").toList].zip
           [.blob address, .int (id : Int)])).1, .ok ()) := by
    simp only [store, generate_sql, hw, hany, Bool.false_eq_true, if_false]
  have hrowsfinal : (((db1.create (root_table_name s.type_)).insertRow
        (root_table_name s.type_)
        ([("address").toList, ("id").toList].zip
          [.blob address, .int (id : Int)])).1).rows (root_table_name s.type_) =
      db.rows (root_table_name s.type_) ++
        [[(("address").toList, .blob address), (("id").toList, .int (id : Int))]] := by
    rw [rows_insert_self, hrows1]
    rfl
  have hfind : ((((db1.create (root_table_name s.type_)).insertRow
        (root_table_name s.type_)
        ([("address").toList, ("id").toList].zip
          [.blob address, .int (id : Int)])).1).rows
        (root_table_name s.type_)).find?
      (fun r => r.lookup ("address").toList == some (.blob address)) =
      some [(("address").toList, .blob address),
        (("id").toList, .int (id : Int))] := by
    rw [hrowsfinal, find?_append_right]
    · simp [List.lookup]
    · intro r hr
      simpa using hfree r hr
  have hlr : lookupRoot (((db1.create (root_table_name s.type_)).insertRow
        (root_table_name s.type_)
        ([("address").toList, ("id").toList].zip
          [.blob address, .int (id : Int)])).1) s.type_ address = some id := by
    simp only [lookupRoot, hfind, List.lookup]
    norm_num
  refine ⟨_, _, id, hstore, hlr, ?_⟩
  intro fuel hfuel
  exact hread _ ((Ext.create db1 (root_table_name s.type_)).trans
    (Ext.insert (db1.create (root_table_name s.type_))
      (root_table_name s.type_) _)) fuel hfuel

/-- The resolver of the round-trip witness scenario: the parent struct
0x1::M::P has a U64 field and a child-struct field of type 0x1::M::C,
which has one address field. -/
def resolveC1 : StructTag → Option NStruct := fun t =>
  match t with
  | .mk _ _ name _ =>
    if name = ("P").toList then
      some ⟨[⟨("a").toList, .u64⟩,
        ⟨("ch").toList, .struct_ [1] (("M").toList) (("C").toList) []⟩]⟩
    else some ⟨[⟨("d").toList, .address⟩]⟩

/-- The child struct of the round-trip witness scenario. -/
def childC1 : AnnotatedMoveStruct :=
  .mk true (.mk [1] ("M").toList ("C").toList [])
    [(("d").toList, .address (List.replicate 16 3))]

/-- The parent struct of the round-trip witness scenario. -/
def structC1 : AnnotatedMoveStruct :=
  .mk true (.mk [1] ("M").toList ("P").toList [])
    [(("a").toList, .u64 7), (("ch").toList, .struct_ childC1)]

theorem C1_roundtrip_storable_witness :
    ∃ stmts db2 id,
      store (List.replicate 16 9) structC1.type_ structC1 Db.empty =
        (stmts, db2, .ok ()) ∧
      lookupRoot db2 structC1.type_ (List.replicate 16 9) = some id ∧
      ∀ fuel, costStruct structC1 ≤ fuel →
        fetch_struct resolveC1 fuel structC1.type_ id db2 =
          .ok (eraseVal (.struct_ structC1)) :=
  C1_roundtrip_storable resolveC1 (List.replicate 16 9) structC1 _ Db.empty
    rfl
    (StorableStruct.mk (by simp [structC1])
      (by decide)
      (StorableFields.cons (.u64 (by norm_num))
        (StorableFields.cons
          (StorableVal.struct_ rfl rfl rfl
            (StorableStruct.mk (by simp [childC1])
              (by decide)
              (StorableFields.cons (.address (by simp)) .nil)))
          .nil)))
    (by intro r hr; simp [Db.rows, Db.empty] at hr)

/-! ## Claim C6: injectivity of struct_tag_to_sql

The claim fails as stated: identifiers may contain underscores (Move
identifiers allow them), and the encoder glues components with a double
underscore, so module A__B with name C and module A with name B__C
collide. The corrected statement restricts to tags whose identifiers are
non-empty and underscore-free, whose addresses are sixteen in-range
bytes, and whose type parameters avoid Signer; on that class the name is
inverted by an explicit parser, so it is injective. -/

/-- Numeric value of one lowercase hex digit, inverse of Nat.digitChar
below sixteen. -/
def hexDigitVal (c : Char) : Nat :=
  match c with
  | '0' => 0 | '1' => 1 | '2' => 2 | '3' => 3 | '4' => 4
  | '5' => 5 | '6' => 6 | '7' => 7 | '8' => 8 | '9' => 9
  | 'a' => 10 | 'b' => 11 | 'c' => 12 | 'd' => 13 | 'e' => 14 | 'f' => 15
  | _ => 0

/-- Numeric value of a hex digit string, most significant first. -/
def hexVal (cs : List Char) : Nat :=
  cs.foldl (fun acc c => acc * 16 + hexDigitVal c) 0

/-- Strip an expected leading string, returning the remainder. -/
def stripLead : List Char → List Char → Option (List Char)
  | [], s => some s
  | _ :: _, [] => none
  | p :: ps, c :: cs => if c = p then stripLead ps cs else none

/-- The token predicate of the parser: any character except the
underscore. -/
def notUnd (c : Char) : Bool := c != '_'

mutual
/-- Parse one rendered type parameter back into a TypeTag. -/
def parseTy : Nat → List Char → Option (TypeTag × List Char)
  | 0, _ => none
  | fuel + 1, s =>
    match stripLead ("Bool").toList s with
    | some r => some (.bool, r)
    | none =>
    match stripLead ("U8").toList s with
    | some r => some (.u8, r)
    | none =>
    match stripLead ("U64").toList s with
    | some r => some (.u64, r)
    | none =>
    match stripLead ("U128").toList s with
    | some r => some (.u128, r)
    | none =>
    match stripLead ("Address").toList s with
    | some r => some (.address, r)
    | none =>
    match stripLead ("Vector__t_").toList s with
    | some r =>
      (match parseTy fuel r with
      | some (t, r2) =>
        match stripLead ("_t").toList r2 with
        | some r3 => some (.vector t, r3)
        | none => none
      | none => none)
    | none =>
      match parseTag fuel s with
      | some (tg, r) => some (.struct_ tg, r)
      | none => none

/-- Parse a double-underscore separated list of rendered type
parameters, stopping when no separator follows. -/
def parseList : Nat → List Char → Option (List TypeTag × List Char)
  | 0, _ => none
  | fuel + 1, s =>
    match parseTy fuel s with
    | none => none
    | some (t, r) =>
      match stripLead ("__").toList r with
      | some r2 =>
        (match parseList fuel r2 with
        | some (ts, r3) => some (t :: ts, r3)
        | none => none)
      | none => some ([t], r)

/-- Parse a rendered struct tag back into a StructTag. -/
def parseTag : Nat → List Char → Option (StructTag × List Char)
  | 0, _ => none
  | fuel + 1, s =>
    match s with
    | 'x' :: rest0 =>
      match stripLead ("__").toList (rest0.dropWhile notUnd) with
      | none => none
      | some r1 =>
        match stripLead ("__").toList (r1.dropWhile notUnd) with
        | none => none
        | some r3 =>
          match stripLead ("__t_").toList (r3.dropWhile notUnd) with
          | some r5 =>
            (match parseList fuel r5 with
            | none => none
            | some (ps, r6) =>
              match stripLead ("_t").toList r6 with
              | some r7 =>
                some (.mk (beBytes 16 (hexVal (rest0.takeWhile notUnd)))
                  (r1.takeWhile notUnd) (r3.takeWhile notUnd) ps, r7)
              | none => none)
          | none =>
            some (.mk (beBytes 16 (hexVal (rest0.takeWhile notUnd)))
              (r1.takeWhile notUnd) (r3.takeWhile notUnd) [],
              r3.dropWhile notUnd)
    | _ => none
end

mutual
/-- Parser fuel needed for one type parameter. -/
def sizeTy : TypeTag → Nat
  | .vector t => 1 + sizeTy t
  | .struct_ s => 1 + sizeTag s
  | _ => 1

/-- Parser fuel needed for a parameter list. -/
def sizeList : List TypeTag → Nat
  | [] => 1
  | t :: ts => 1 + max (sizeTy t) (sizeList ts)

/-- Parser fuel needed for a struct tag. -/
def sizeTag : StructTag → Nat
  | .mk _ _ _ ps => 1 + sizeList ps
end

/-- A well-formed identifier: non-empty and underscore-free. -/
def wfIdent (i : Ident) : Bool :=
  !i.isEmpty && i.all (fun c => c != '_')

/-- A well-formed account address: sixteen bytes below 256. -/
def wfAddr (a : List Byte) : Bool :=
  decide (a.length = 16) && a.all (fun b => decide (b < 256))

mutual
/-- Well-formed type parameters: no Signer, recursively well-formed. -/
def wfTy : TypeTag → Bool
  | .bool | .u8 | .u64 | .u128 | .address => true
  | .signer => false
  | .vector t => wfTy t
  | .struct_ s => wfTag s

/-- Well-formedness over a parameter list. -/
def wfTyList : List TypeTag → Bool
  | [] => true
  | t :: ts => wfTy t && wfTyList ts

/-- A well-formed struct tag: sixteen-byte address, non-empty
underscore-free module and name, well-formed parameters. -/
def wfTag : StructTag → Bool
  | .mk a m n ps => wfAddr a && wfIdent m && wfIdent n && wfTyList ps
end

/-- The rest strings after a rendered tag inside a larger rendering:
nothing, a terminator, or a separator followed by the first character of
another rendered parameter. -/
def Bdry (rest : List Char) : Prop :=
  rest = [] ∨ (∃ r, rest = '_' :: 't' :: r) ∨
    ∃ c r, rest = '_' :: '_' :: c :: r ∧ c ≠ 't' ∧ c ≠ '_'

/-- Stripping a string off itself leaves the appended remainder. -/
theorem stripLead_append (p : List Char) : ∀ s, stripLead p (p ++ s) = some s := by
  induction p with
  | nil => intro s; rfl
  | cons c cs ih => intro s; simp [stripLead, ih]

/-- A token of non-underscore characters followed by an underscore or
nothing is what takeWhile and dropWhile split off. -/
theorem token_split {tok rest : List Char}
    (htok : ∀ c ∈ tok, c ≠ '_')
    (hrest : rest = [] ∨ ∃ r, rest = '_' :: r) :
    (tok ++ rest).takeWhile notUnd = tok ∧
    (tok ++ rest).dropWhile notUnd = rest := by
  induction tok with
  | nil =>
    rcases hrest with rfl | ⟨r, rfl⟩
    · exact ⟨rfl, rfl⟩
    · constructor <;> simp [List.takeWhile, List.dropWhile, notUnd]
  | cons c cs ih =>
    have hc : c ≠ '_' := htok c (by simp)
    obtain ⟨h1, h2⟩ := ih (fun x hx => htok x (by simp [hx]))
    constructor
    · simp only [List.cons_append, List.takeWhile_cons]
      simp [notUnd, hc, h1]
    · simp only [List.cons_append, List.dropWhile_cons]
      simp [notUnd, hc, h2]

/-- digitChar of a value below sixteen is a hex digit, never an
underscore. -/
theorem digitChar_ne_und {d : Nat} (h : d < 16) : Nat.digitChar d ≠ '_' := by
  interval_cases d <;> decide

/-- hexDigitVal inverts digitChar below sixteen. -/
theorem hexDigitVal_digitChar {d : Nat} (h : d < 16) :
    hexDigitVal (Nat.digitChar d) = d := by
  interval_cases d <;> decide

/-- Hex renderings of byte strings contain no underscore. -/
theorem hexEncode_ne_und : ∀ {a : List Byte}, (∀ b ∈ a, b < 256) →
    ∀ c ∈ hexEncode a, c ≠ '_' := by
  intro a
  induction a with
  | nil => intro h c hc; cases hc
  | cons b bs ih =>
    intro h c hc
    have hb := h b (by simp)
    simp only [hexEncode, hexByte, List.cons_append, List.mem_cons] at hc
    rcases hc with rfl | hc
    · exact digitChar_ne_und (Nat.div_lt_of_lt_mul (show b < 16 * 16 from hb))
    · simp only [List.nil_append, List.mem_cons] at hc
      rcases hc with rfl | hc
      · exact digitChar_ne_und (Nat.mod_lt _ (by norm_num))
      · exact ih (fun x hx => h x (by simp [hx])) c hc

/-- The short address rendering contains no underscore. -/
theorem short_str_ne_und {a : List Byte} (h : ∀ b ∈ a, b < 256) :
    ∀ c ∈ short_str_lossless a, c ≠ '_' := by
  intro c hc
  unfold short_str_lossless at hc
  by_cases he : ((hexEncode a).dropWhile (fun c => decide (c = '0'))).isEmpty = true
  · rw [if_pos he] at hc
    simp only [List.mem_singleton] at hc
    subst hc
    decide
  · rw [if_neg he] at hc
    exact hexEncode_ne_und h c ((List.dropWhile_sublist _).subset hc)

/-- hexVal over the hex rendering recovers the big-endian value. -/
theorem hexVal_hexEncode {a : List Byte} (h : ∀ b ∈ a, b < 256) :
    hexVal (hexEncode a) = fromBeBytes a := by
  unfold hexVal fromBeBytes
  have key : ∀ (bs : List Byte), (∀ b ∈ bs, b < 256) → ∀ acc : Nat,
      (hexEncode bs).foldl (fun acc c => acc * 16 + hexDigitVal c) acc =
      bs.foldl (fun acc b => acc * 256 + b) acc := by
    intro bs
    induction bs with
    | nil => intro h acc; rfl
    | cons b bs2 ih =>
      intro hb acc
      have hblt := hb b (by simp)
      simp only [hexEncode, hexByte, List.cons_append, List.nil_append,
        List.foldl_cons]
      rw [ih (fun x hx => hb x (by simp [hx]))]
      congr 1
      rw [hexDigitVal_digitChar (Nat.div_lt_of_lt_mul (show b < 16 * 16 from hblt)),
        hexDigitVal_digitChar (Nat.mod_lt _ (by norm_num))]
      have hdm := Nat.div_add_mod b 16
      have : (b : Nat) = 16 * (b / 16) + b % 16 := hdm.symm
      calc (acc * 16 + b / 16) * 16 + b % 16
          = acc * 256 + (16 * (b / 16) + b % 16) := by ring_nf
        _ = acc * 256 + b := by rw [← this]
  exact key a h 0

/-- Leading zero hex digits do not change the value. -/
theorem hexVal_dropWhile_zero (cs : List Char) :
    hexVal (cs.dropWhile (fun c => decide (c = '0'))) = hexVal cs := by
  induction cs with
  | nil => rfl
  | cons c rest ih =>
    by_cases hc : c = '0'
    · subst hc
      simpa [List.dropWhile_cons, hexVal] using ih
    · simp [List.dropWhile_cons, hc]

/-- If dropping leading zeros empties a hex string its value is zero. -/
theorem hexVal_zero_of_dropWhile_nil {cs : List Char}
    (h : cs.dropWhile (fun c => decide (c = '0')) = []) : hexVal cs = 0 := by
  rw [← hexVal_dropWhile_zero, h]
  rfl

/-- hexVal of the short rendering is the big-endian address value. -/
theorem hexVal_short_str {a : List Byte} (h : ∀ b ∈ a, b < 256) :
    hexVal (short_str_lossless a) = fromBeBytes a := by
  unfold short_str_lossless
  by_cases he : ((hexEncode a).dropWhile (fun c => decide (c = '0'))).isEmpty = true
  · rw [if_pos he]
    rw [List.isEmpty_iff] at he
    have h0 := hexVal_zero_of_dropWhile_nil he
    rw [hexVal_hexEncode h] at h0
    rw [h0]
    rfl
  · rw [if_neg he]
    rw [hexVal_dropWhile_zero, hexVal_hexEncode h]

/-- A well-formed address is rebuilt from its short rendering. -/
theorem short_str_roundtrip {a : List Byte} (h : wfAddr a = true) :
    beBytes 16 (hexVal (short_str_lossless a)) = a := by
  simp only [wfAddr, Bool.and_eq_true, decide_eq_true_eq, List.all_eq_true] at h
  obtain ⟨hlen, hlt⟩ := h
  rw [hexVal_short_str (fun b hb => by simpa using hlt b hb)]
  rw [← hlen]
  exact beBytes_fromBe a (fun b hb => by simpa using hlt b hb)

/-- A well-formed rendered type parameter starts with a letter or x,
never with t or an underscore. -/
theorem type_param_head {t : TypeTag} (h : wfTy t = true) :
    ∃ c cs, type_param_to_sql t = c :: cs ∧ c ≠ 't' ∧ c ≠ '_' := by
  cases t with
  | bool => exact ⟨'B', _, rfl, by decide, by decide⟩
  | u8 => exact ⟨'U', _, rfl, by decide, by decide⟩
  | u64 => exact ⟨'U', _, rfl, by decide, by decide⟩
  | u128 => exact ⟨'U', _, rfl, by decide, by decide⟩
  | address => exact ⟨'A', _, rfl, by decide, by decide⟩
  | signer => simp [wfTy] at h
  | vector t2 => exact ⟨'V', _, rfl, by decide, by decide⟩
  | struct_ s =>
    cases s with
    | mk a m n ps =>
      refine ⟨'x', short_str_lossless a ++ ("__").toList ++ m ++ ("__").toList
        ++ n ++ (if ps.isEmpty then [] else ("__t_").toList ++
          type_params_to_sql ps ++ ("_t").toList), ?_, by decide, by decide⟩
      simp [type_param_to_sql, struct_tag_to_sql]

/-- A boundary rest is empty or starts with an underscore. -/
theorem Bdry.head_und {rest : List Char} (h : Bdry rest) :
    rest = [] ∨ ∃ r, rest = '_' :: r := by
  rcases h with rfl | ⟨r, rfl⟩ | ⟨c, r, rfl, -, -⟩
  · exact Or.inl rfl
  · exact Or.inr ⟨_, rfl⟩
  · exact Or.inr ⟨_, rfl⟩

/-- Stripping a double underscore off a cons form. -/
theorem stripLead_uu (s : List Char) :
    stripLead ("__").toList ('_' :: '_' :: s) = some s := rfl

/-- One unfolding step of parseTy at a Vector rendering. -/
theorem parseTy_vector (f : Nat) (s : List Char) :
    parseTy (f + 1) (("Vector__t_").toList ++ s) =
      (match parseTy f s with
      | some (t, r2) =>
        match stripLead ("_t").toList r2 with
        | some r3 => some (.vector t, r3)
        | none => none
      | none => none) := rfl

/-- One unfolding step of parseTy at a struct rendering. -/
theorem parseTy_xhead (f : Nat) (s : List Char) :
    parseTy (f + 1) ('x' :: s) =
      (match parseTag f ('x' :: s) with
      | some (tg, r) => some (.struct_ tg, r)
      | none => none) := rfl

/-- One unfolding step of parseList. -/
theorem parseList_step (f : Nat) (s : List Char) :
    parseList (f + 1) s =
      (match parseTy f s with
      | none => none
      | some (t, r) =>
        match stripLead ("__").toList r with
        | some r2 =>
          (match parseList f r2 with
          | some (ts, r3) => some (t :: ts, r3)
          | none => none)
        | none => some ([t], r)) := rfl

/-- One unfolding step of parseTag at an x-headed name. -/
theorem parseTag_step (f : Nat) (rest0 : List Char) :
    parseTag (f + 1) ('x' :: rest0) =
      (match stripLead ("__").toList (rest0.dropWhile notUnd) with
      | none => none
      | some r1 =>
        match stripLead ("__").toList (r1.dropWhile notUnd) with
        | none => none
        | some r3 =>
          match stripLead ("__t_").toList (r3.dropWhile notUnd) with
          | some r5 =>
            (match parseList f r5 with
            | none => none
            | some (ps, r6) =>
              match stripLead ("_t").toList r6 with
              | some r7 =>
                some (.mk (beBytes 16 (hexVal (rest0.takeWhile notUnd)))
                  (r1.takeWhile notUnd) (r3.takeWhile notUnd) ps, r7)
              | none => none)
          | none =>
            some (.mk (beBytes 16 (hexVal (rest0.takeWhile notUnd)))
              (r1.takeWhile notUnd) (r3.takeWhile notUnd) [],
              r3.dropWhile notUnd)) := rfl

mutual
/-- The parser inverts type_param_to_sql on well-formed parameters at any
boundary rest. -/
theorem parse_type_param (t : TypeTag) :
    ∀ {rest : List Char}, wfTy t = true → Bdry rest →
    ∀ {fuel : Nat}, sizeTy t ≤ fuel →
      parseTy fuel (type_param_to_sql t ++ rest) = some (t, rest) := by
  cases t with
  | bool =>
    intro rest hwf hb fuel hsz
    cases fuel with
    | zero => exact absurd hsz (by decide)
    | succ f => rfl
  | u8 =>
    intro rest hwf hb fuel hsz
    cases fuel with
    | zero => exact absurd hsz (by decide)
    | succ f => rfl
  | u64 =>
    intro rest hwf hb fuel hsz
    cases fuel with
    | zero => exact absurd hsz (by decide)
    | succ f => rfl
  | u128 =>
    intro rest hwf hb fuel hsz
    cases fuel with
    | zero => exact absurd hsz (by decide)
    | succ f => rfl
  | address =>
    intro rest hwf hb fuel hsz
    cases fuel with
    | zero => exact absurd hsz (by decide)
    | succ f => rfl
  | signer =>
    intro rest hwf hb fuel hsz
    exact absurd hwf (by decide)
  | vector t =>
    intro rest hwf hb fuel hsz
    have hone : sizeTy (.vector t) = 1 + sizeTy t := rfl
    cases fuel with
    | zero => omega
    | succ f =>
      have hwf2 : wfTy t = true := by simpa [wfTy] using hwf
      have hin := parse_type_param t hwf2
        (show Bdry ('_' :: 't' :: rest) from Or.inr (Or.inl ⟨rest, rfl⟩))
        (show sizeTy t ≤ f by omega)
      have henc : type_param_to_sql (.vector t) ++ rest =
          ("Vector__t_").toList ++ (type_param_to_sql t ++ ('_' :: 't' :: rest)) := by
        simp [type_param_to_sql, List.append_assoc]
      rw [henc, parseTy_vector, hin]
      rfl
  | struct_ s =>
    intro rest hwf hb fuel hsz
    have hone : sizeTy (.struct_ s) = 1 + sizeTag s := rfl
    cases fuel with
    | zero => omega
    | succ f =>
      have hwf2 : wfTag s = true := by simpa [wfTy] using hwf
      have hin := parse_struct_tag s hwf2 hb (show sizeTag s ≤ f by omega)
      cases s with
      | mk a m n ps =>
        have hx : struct_tag_to_sql (.mk a m n ps) = 'x' ::
            (short_str_lossless a ++ ("__").toList ++ m ++ ("__").toList ++ n ++
              (if ps.isEmpty then [] else ("__t_").toList ++
                type_params_to_sql ps ++ ("_t").toList)) := by
          simp [struct_tag_to_sql]
        have henc : type_param_to_sql (.struct_ (.mk a m n ps)) ++ rest =
            'x' :: ((short_str_lossless a ++ ("__").toList ++ m ++
              ("__").toList ++ n ++
              (if ps.isEmpty then [] else ("__t_").toList ++
                type_params_to_sql ps ++ ("_t").toList)) ++ rest) := by
          show struct_tag_to_sql (.mk a m n ps) ++ rest = _
          rw [hx]
          rfl
        rw [henc, parseTy_xhead]
        have hin2 : parseTag f ('x' :: ((short_str_lossless a ++ ("__").toList
            ++ m ++ ("__").toList ++ n ++
            (if ps.isEmpty then [] else ("__t_").toList ++
              type_params_to_sql ps ++ ("_t").toList)) ++ rest)) =
            some (.mk a m n ps, rest) := by
          rw [show ('x' :: ((short_str_lossless a ++ ("__").toList ++ m ++
            ("__").toList ++ n ++
            (if ps.isEmpty then [] else ("__t_").toList ++
              type_params_to_sql ps ++ ("_t").toList)) ++ rest) : List Char) =
            struct_tag_to_sql (.mk a m n ps) ++ rest by rw [hx]; rfl]
          exact hin
        rw [hin2]

/-- The parser inverts type_params_to_sql on a non-empty well-formed
parameter list followed by the closing terminator. -/
theorem parse_params (ps : List TypeTag) :
    ∀ {r : List Char}, wfTyList ps = true → ps ≠ [] →
    ∀ {fuel : Nat}, sizeList ps ≤ fuel →
      parseList fuel (type_params_to_sql ps ++ ('_' :: 't' :: r)) =
        some (ps, '_' :: 't' :: r) := by
  cases ps with
  | nil => intro r hwf hne fuel hsz; exact absurd rfl hne
  | cons t ts =>
    intro r hwf hne fuel hsz
    have hone : sizeList (t :: ts) = 1 + max (sizeTy t) (sizeList ts) := rfl
    cases fuel with
    | zero => omega
    | succ f =>
      simp only [wfTyList, Bool.and_eq_true] at hwf
      have hszt : sizeTy t ≤ f := by omega
      have hszts : sizeList ts ≤ f := by omega
      cases ts with
      | nil =>
        have hin := parse_type_param t hwf.1
          (show Bdry ('_' :: 't' :: r) from Or.inr (Or.inl ⟨r, rfl⟩)) hszt
        rw [show type_params_to_sql [t] = type_param_to_sql t from rfl,
          parseList_step, hin]
        rfl
      | cons t2 ts2 =>
        obtain ⟨c0, cs0, henc2, hc0t, hc0u⟩ := type_param_head
          (show wfTy t2 = true by
            have := hwf.2
            simp only [wfTyList, Bool.and_eq_true] at this
            exact this.1)
        have htail : ∃ tl, type_params_to_sql (t2 :: ts2) = c0 :: tl := by
          cases ts2 with
          | nil => exact ⟨cs0, by simp [type_params_to_sql, henc2]⟩
          | cons t3 ts3 =>
            exact ⟨cs0 ++ ("__").toList ++ type_params_to_sql (t3 :: ts3), by
              simp [type_params_to_sql, henc2]⟩
        obtain ⟨tl, htl⟩ := htail
        have hin1 := parse_type_param t hwf.1
          (show Bdry ('_' :: '_' :: c0 :: (tl ++ ('_' :: 't' :: r))) from
            Or.inr (Or.inr ⟨c0, tl ++ ('_' :: 't' :: r), rfl, hc0t, hc0u⟩)) hszt
        have hrec : parseList f (type_params_to_sql (t2 :: ts2) ++
            ('_' :: 't' :: r)) = some (t2 :: ts2, '_' :: 't' :: r) :=
          parse_params (t2 :: ts2) hwf.2 (by simp) hszts
        have hstr : type_params_to_sql (t :: t2 :: ts2) ++ ('_' :: 't' :: r) =
            type_param_to_sql t ++ ('_' :: '_' :: c0 :: (tl ++ ('_' :: 't' :: r))) := by
          show (type_param_to_sql t ++ ("__").toList ++
            type_params_to_sql (t2 :: ts2)) ++ ('_' :: 't' :: r) = _
          rw [htl]
          simp
        rw [hstr, parseList_step, hin1]
        have hback : (c0 :: (tl ++ ('_' :: 't' :: r)) : List Char) =
            type_params_to_sql (t2 :: ts2) ++ ('_' :: 't' :: r) := by
          rw [htl]
          rfl
        show (match parseList f (c0 :: (tl ++ ('_' :: 't' :: r))) with
          | some (ts, r3) => some (t :: ts, r3)
          | none => none) = _
        rw [hback, hrec]

/-- The parser inverts struct_tag_to_sql on well-formed tags at any
boundary rest. -/
theorem parse_struct_tag (tg : StructTag) :
    ∀ {rest : List Char}, wfTag tg = true → Bdry rest →
    ∀ {fuel : Nat}, sizeTag tg ≤ fuel →
      parseTag fuel (struct_tag_to_sql tg ++ rest) = some (tg, rest) := by
  cases tg with
  | mk a m n ps =>
    intro rest hwf hb fuel hsz
    have hone : sizeTag (.mk a m n ps) = 1 + sizeList ps := rfl
    cases fuel with
    | zero => omega
    | succ f =>
      simp only [wfTag, Bool.and_eq_true] at hwf
      obtain ⟨⟨⟨haddr, hm⟩, hn⟩, hps⟩ := hwf
      have hmu : ∀ c ∈ m, c ≠ '_' := by
        simp only [wfIdent, Bool.and_eq_true, List.all_eq_true, bne_iff_ne] at hm
        exact fun c hc => hm.2 c hc
      have hnu : ∀ c ∈ n, c ≠ '_' := by
        simp only [wfIdent, Bool.and_eq_true, List.all_eq_true, bne_iff_ne] at hn
        exact fun c hc => hn.2 c hc
      have hau : ∀ c ∈ short_str_lossless a, c ≠ '_' := by
        refine short_str_ne_und (fun b hbm => ?_)
        simp only [wfAddr, Bool.and_eq_true, decide_eq_true_eq,
          List.all_eq_true] at haddr
        simpa using haddr.2 b hbm
      cases ps with
      | nil =>
        have hxform : struct_tag_to_sql (.mk a m n []) ++ rest = 'x' ::
            (short_str_lossless a ++ ('_' :: '_' :: (m ++ ('_' :: '_' ::
              (n ++ rest))))) := by
          simp [struct_tag_to_sql, List.append_assoc]
        have hsplit0 := token_split hau
          (Or.inr ⟨'_' :: (m ++ ('_' :: '_' :: (n ++ rest))), rfl⟩)
        have hsplit1 := token_split hmu (Or.inr ⟨'_' :: (n ++ rest), rfl⟩)
        have hsplit2 := token_split hnu hb.head_und
        have hnone : stripLead ("__t_").toList rest = none := by
          rcases hb with rfl | ⟨r2, rfl⟩ | ⟨c, r2, rfl, hct, hcu⟩
          · rfl
          · rfl
          · show stripLead ['_', '_', 't', '_'] ('_' :: '_' :: c :: r2) = none
            simp [stripLead, hct]
        rw [hxform, parseTag_step]
        simp only [hsplit0.2, stripLead_uu, hsplit1.2, hsplit2.2, hnone,
          hsplit0.1, hsplit1.1, hsplit2.1, short_str_roundtrip haddr]
      | cons p ps2 =>
        have hxform : struct_tag_to_sql (.mk a m n (p :: ps2)) ++ rest = 'x' ::
            (short_str_lossless a ++ ('_' :: '_' :: (m ++ ('_' :: '_' ::
              (n ++ ('_' :: '_' :: 't' :: '_' ::
                (type_params_to_sql (p :: ps2) ++ ('_' :: 't' :: rest)))))))) := by
          simp [struct_tag_to_sql, List.append_assoc]
        have hsplit0 := token_split hau
          (Or.inr ⟨'_' :: (m ++ ('_' :: '_' :: (n ++ ('_' :: '_' :: 't' :: '_' ::
            (type_params_to_sql (p :: ps2) ++ ('_' :: 't' :: rest)))))), rfl⟩)
        have hsplit1 := token_split hmu
          (Or.inr ⟨'_' :: (n ++ ('_' :: '_' :: 't' :: '_' ::
            (type_params_to_sql (p :: ps2) ++ ('_' :: 't' :: rest)))), rfl⟩)
        have hsplit2 := token_split hnu
          (Or.inr ⟨'_' :: 't' :: '_' ::
            (type_params_to_sql (p :: ps2) ++ ('_' :: 't' :: rest)), rfl⟩)
        have hstep4 : stripLead ("__t_").toList ('_' :: '_' :: 't' :: '_' ::
            (type_params_to_sql (p :: ps2) ++ ('_' :: 't' :: rest))) =
            some (type_params_to_sql (p :: ps2) ++ ('_' :: 't' :: rest)) := rfl
        have hlist : parseList f (type_params_to_sql (p :: ps2) ++
            ('_' :: 't' :: rest)) = some (p :: ps2, '_' :: 't' :: rest) :=
          parse_params (p :: ps2) hps (by simp)
            (show sizeList (p :: ps2) ≤ f by omega)
        have hstep5 : stripLead ("_t").toList ('_' :: 't' :: rest) =
            some rest := rfl
        rw [hxform, parseTag_step]
        simp only [hsplit0.2, stripLead_uu, hsplit1.2, hsplit2.2, hstep4,
          hlist, hstep5, hsplit0.1, hsplit1.1, hsplit2.1,
          short_str_roundtrip haddr]
end

/-- C6 as stated fails on this source: identifiers may contain
underscores (Move identifiers allow them), and struct_tag_to_sql joins
address, module and name with a double underscore (src/db.rs line 365),
so the distinct tags 0x1::A__B::C and 0x1::A::B__C both name the table
x1__A__B__C. -/
theorem C6_counterexample_underscore_collision :
    struct_tag_to_sql (.mk [1] ("A__B").toList ("C").toList []) =
      struct_tag_to_sql (.mk [1] ("A").toList ("B__C").toList []) ∧
    (StructTag.mk [1] ("A__B").toList ("C").toList []) ≠
      (StructTag.mk [1] ("A").toList ("B__C").toList []) := by
  constructor
  · decide
  · intro h
    injection h with h1 h2 h3 h4
    exact absurd h2 (by decide)

/-- C6 corrected: struct_tag_to_sql is injective on well-formed tags —
sixteen-byte addresses, non-empty underscore-free module and struct
names, Signer-free type parameters — because on that class the rendered
name parses back to the tag it came from. -/
theorem C6_struct_tag_to_sql_injective_wf (t1 t2 : StructTag)
    (h1 : wfTag t1 = true) (h2 : wfTag t2 = true)
    (heq : struct_tag_to_sql t1 = struct_tag_to_sql t2) : t1 = t2 := by
  have p1 : parseTag (max (sizeTag t1) (sizeTag t2))
      (struct_tag_to_sql t1 ++ []) = some (t1, []) :=
    parse_struct_tag t1 h1 (Or.inl rfl) (le_max_left _ _)
  have p2 : parseTag (max (sizeTag t1) (sizeTag t2))
      (struct_tag_to_sql t2 ++ []) = some (t2, []) :=
    parse_struct_tag t2 h2 (Or.inl rfl) (le_max_right _ _)
  rw [List.append_nil] at p1 p2
  rw [heq, p2] at p1
  injection p1 with p3
  injection p3 with p4 p5
  exact p4.symm

theorem C6_struct_tag_to_sql_injective_wf_witness :
    (StructTag.mk (List.replicate 16 1) ("Coin").toList ("Balance").toList
      [.struct_ (.mk (List.replicate 16 1) ("XDX").toList ("XDX").toList [])]
      : StructTag) =
    StructTag.mk (List.replicate 16 1) ("Coin").toList ("Balance").toList
      [.struct_ (.mk (List.replicate 16 1) ("XDX").toList ("XDX").toList [])] :=
  C6_struct_tag_to_sql_injective_wf _ _ (by decide) (by decide) rfl

end DiemSqlize
